import Mathlib

/-!
# imperiuse/golang_lib : telnet command server, JSON comment stripper, e-mail sender

A shallow embedding of

* `telnet/telnet.go` : `SafetyWrite`, `ServerTelnet.CommandAnalyze`,
  `ServerTelnet.handleConnection`;
* `jsonnocomment/jsonnocomment.go` : `ReadFileAndCleanComment`;
* `email/email.go` : `sendEmail`.

Go strings and byte slices are lists of bytes (`List Nat`).  Effects (writes to
the connection, channel sends, handler calls, deferred calls) are recorded in
event traces, one for the reader and one for the analyzer.  The two goroutines of a
connection meet at the unbuffered channels: a send on `msgChan` completes when the
analyzer is back at its receive, and blocks for ever once the analyzer has left its
loop.  Logging calls are not recorded.
-/

namespace Telnet

/-- A Go `string` / `[]byte`: a sequence of bytes. -/
abbrev GoString := List Nat

/-- The bytes of an ASCII string literal. -/
def ascii (s : String) : GoString := s.toList.map Char.toNat

/-- The literal `"help"`. -/
def helpMsg : GoString := [104, 101, 108, 112]

/-- The literal `"exit"`. -/
def exitMsg : GoString := [101, 120, 105, 116]

/-- The literal `"Q"`. -/
def upperQ : GoString := [81]

/-- The literal `"q"`. -/
def lowerQ : GoString := [113]

/-- The three bytes `27, 91, 65` (`^[[A`, cursor up). -/
def repeatSeq : GoString := [27, 91, 65]

/-- The literal `"[Telnet]: "` of `SafetyWrite`. -/
def telnetPrefix : GoString := [91, 84, 101, 108, 110, 101, 116, 93, 58, 32]

/-- The literal `"Bad command send!"`, the leading words of the format string of line 97. -/
def badCommandText : GoString :=
  [66, 97, 100, 32, 99, 111, 109, 109, 97, 110, 100, 32, 115, 101, 110, 100, 33]

/-- The value `fmt.Sprintf("Bad command send!  - %s ", msg)`. -/
def badCommandNotice (msg : GoString) : GoString :=
  badCommandText ++ [32, 32, 45, 32] ++ msg ++ [32]

/-- The literal `"telnet_now_connect"`. -/
def telnetNowConnect : GoString :=
  [116, 101, 108, 110, 101, 116, 95, 110, 111, 119, 95, 99, 111, 110, 110, 101, 99, 116]

/-- The literal `"telnet_connect"`. -/
def telnetConnect : GoString :=
  [116, 101, 108, 110, 101, 116, 95, 99, 111, 110, 110, 101, 99, 116]

/-- The literal `"telnet_panic_recover_handle_connection"`. -/
def telnetPanicRecover : GoString :=
  [116, 101, 108, 110, 101, 116, 95, 112, 97, 110, 105, 99, 95, 114, 101, 99, 111, 118, 101, 114,
   95, 104, 97, 110, 100, 108, 101, 95, 99, 111, 110, 110, 101, 99, 116, 105, 111, 110]

/-- Observable effects of the analyzer and of the reader, in program order. -/
inductive Event where
  /-- The call `command.Func(server, connection, msg)` of the table entry at index `idx`. -/
  | handler (idx : Nat) (msg : GoString)
  /-- The call `c.Write(bytes)` on the connection. -/
  | write (bytes : GoString)
  /-- The send `stopChan <- new(interface{})`. -/
  | stop
  /-- The statement `go server.CommandAnalyze(connection, msgChan, stopChan)`. -/
  | goAnalyze
  /-- The send `msgChan <- msg`. -/
  | send (msg : GoString)
  /-- The statement `t = time.After(d)`, with `d` in nanoseconds. -/
  | armTimer (d : Int)
  /-- The call `connection.SetReadDeadline(now + 5s)`. -/
  | setReadDeadline
  /-- The call `time.Sleep(ms * time.Millisecond)`. -/
  | sleep (ms : Nat)
  /-- The call `connection.Close()`. -/
  | close
  /-- The call `(*server.Stats).Dec(name)`. -/
  | statsDec (name : GoString)
  /-- The call `(*server.Stats).Inc(name)`. -/
  | statsInc (name : GoString)
  deriving DecidableEq, Repr

/-- `SafetyWrite(c, a...)`: the byte slice handed to the single `c.Write` call.
The slice starts as `[]byte("[Telnet]: ")`; every argument is appended, followed by
`byte(10), byte(13)`.  Setting the write deadline and the error of `Write` (which is only
logged) are not recorded. -/
def SafetyWrite (a : List GoString) : GoString :=
  a.foldl (fun bytes arg => (bytes ++ arg) ++ [10, 13]) telnetPrefix

/-- What a handler call returns and leaves behind: the state of everything the handler can
touch, whether `exit != nil`, whether `err != nil`. -/
structure FuncResult (W : Type) where
  world : W
  exit : Bool
  err : Bool

/-- `CommandTelnet`: name, `RegExp.MatchString` as a predicate on the message, and the
handler `Func`, a function of the state `W` of the server, connection and surroundings. -/
structure CommandTelnet (W : Type) where
  Name : GoString
  RegExp : GoString → Bool
  Func : W → GoString → FuncResult W

/-- `CommandList`. -/
abbrev CommandList (W : Type) := List (CommandTelnet W)

/-- The test of line 64:
`len(msg) == 3 && msg[0] == 27 && msg[1] == 91 && msg[2] == 65`. -/
def isRepeatSeq (msg : GoString) : Bool :=
  msg.length == 3 && msg.getD 0 0 == 27 && msg.getD 1 0 == 91 && msg.getD 2 0 == 65

/-- The test of line 70: `msg == "Q" || msg == "q"`. -/
def isQuitAlias (msg : GoString) : Bool :=
  decide (msg = upperQ) || decide (msg = lowerQ)

/-- Lines 64-68: the message after the repeat-last-command step, and the new `oldMsg`. -/
def repeatStep (oldMsg msg : GoString) : GoString × GoString :=
  if isRepeatSeq msg then (oldMsg, oldMsg) else (msg, msg)

/-- Lines 70-72: quit aliasing. -/
def aliasStep (msg : GoString) : GoString :=
  if isQuitAlias msg then exitMsg else msg

/-- The message that is matched and dispatched (lines 64-72). -/
def effectiveMsg (oldMsg msg : GoString) : GoString :=
  aliasStep (repeatStep oldMsg msg).1

/-- Outcome of the scan `for _, command := range server.TCL` (lines 74-92). -/
structure ScanResult (W : Type) where
  world : W
  events : List Event
  noOneMatch : Bool
  returned : Bool

/-- The loop of lines 75-92 over the entries from index `idx` on. -/
def scanTCL {W : Type} : CommandList W → Nat → W → GoString → ScanResult W
  | [], _, w, _ => ⟨w, [], true, false⟩
  | command :: rest, idx, w, msg =>
    if command.RegExp msg then
      let r := command.Func w msg
      if r.err then
        ⟨r.world, [Event.handler idx msg, Event.stop], false, true⟩
      else if r.exit then
        ⟨r.world, [Event.handler idx msg, Event.stop], false, true⟩
      else
        ⟨r.world, [Event.handler idx msg], false, false⟩
    else
      scanTCL rest (idx + 1) w msg

/-- The local variables of `CommandAnalyze` together with the state handlers act on. -/
structure AnalyzerState (W : Type) where
  count : Nat
  oldMsg : GoString
  world : W

/-- The state at entry of `CommandAnalyze`: `var count int; var oldMsg string`. -/
def AnalyzerState.init {W : Type} (w : W) : AnalyzerState W := ⟨0, [], w⟩

/-- Result of processing messages: the new state, the events, and whether
`CommandAnalyze` has returned. -/
structure AnalyzeResult (W : Type) where
  state : AnalyzerState W
  events : List Event
  returned : Bool

/-- One pass of the outer `for` of `CommandAnalyze` (lines 59-99) for the received `msg`. -/
def analyzeMsg {W : Type} (tcl : CommandList W) (st : AnalyzerState W) (msg : GoString) :
    AnalyzeResult W :=
  let count := st.count + 1
  let p := repeatStep st.oldMsg msg
  let m := aliasStep p.1
  let r := scanTCL tcl 0 st.world m
  if r.returned then
    ⟨⟨count, p.2, r.world⟩, r.events, true⟩
  else if r.noOneMatch then
    ⟨⟨count, p.2, r.world⟩, r.events ++ [Event.write (SafetyWrite [badCommandNotice m])], false⟩
  else
    ⟨⟨count, p.2, r.world⟩, r.events, false⟩

/-- `CommandAnalyze` run on the messages that arrive on `msgChan`, in order.  When the
list is used up the analyzer is blocked in `<-msgChan` (`returned = false`). -/
def CommandAnalyze {W : Type} (tcl : CommandList W) (st : AnalyzerState W) :
    List GoString → AnalyzeResult W
  | [] => ⟨st, [], false⟩
  | msg :: rest =>
    let r := analyzeMsg tcl st msg
    if r.returned then r
    else
      let r2 := CommandAnalyze tcl r.state rest
      ⟨r2.state, r.events ++ r2.events, r2.returned⟩

/-- The handler calls recorded in a trace: table index and message text. -/
def handlerCalls : List Event → List (Nat × GoString)
  | [] => []
  | Event.handler i m :: es => (i, m) :: handlerCalls es
  | _ :: es => handlerCalls es

/-- The byte slices written to the connection in a trace. -/
def writes : List Event → List GoString
  | [] => []
  | Event.write b :: es => b :: writes es
  | _ :: es => writes es

/-- The messages sent on `msgChan` in a trace. -/
def sends : List Event → List GoString
  | [] => []
  | Event.send m :: es => m :: sends es
  | _ :: es => sends es

/-- The error value of `connection.Read`: `nil`, `io.EOF`, or any other error
(for example a deadline expiry). -/
inductive ReadErr where
  | nil
  | EOF
  | other
  deriving DecidableEq, Repr

/-- What one call `connection.Read(buf)` delivers: the bytes it stores at the front of `buf`
(as many as fit; their number is `n`) and the error it returns. -/
structure ReadResult where
  data : List Nat
  err : ReadErr

/-- What the surroundings do during one pass of the reader loop: the result of the read, and at
the `select` of line 158 whether `<-t` is ready, whether the analyzer has by then finished the
handler call it was given (so that, when it is to send the stop signal, it is blocked in
`stopChan <-`), and which case the runtime picks when both are ready. -/
structure IterEnv where
  read : ReadResult
  timerFired : Bool
  analyzerSettled : Bool
  pickTimer : Bool

/-- How one pass of the reader loop goes: next pass, `return` from `case <-t`, `return` from
`case <-stopChan`, a run-time panic, or blocked for ever in a send on `msgChan`. -/
inductive IterExit where
  | next
  | timeout
  | stop
  | panic
  | blocked
  deriving DecidableEq, Repr

/-- Conversion to `int64` (two's complement wrap-around). -/
def toInt64 (x : Int) : Int := (x + 2 ^ 63) % 2 ^ 64 - 2 ^ 63

/-- `time.Duration(server.Timeout) * time.Second`, in nanoseconds. -/
def idleDuration (timeout : Nat) : Int := toInt64 (toInt64 timeout * 1000000000)

/-- `ServerTelnet`.  `Stats` and `CommandChan` are seen through the events only. -/
structure ServerTelnet (W : Type) where
  Port : Nat
  Timeout : Nat
  BufSize : Nat
  LogFile : GoString
  TCL : CommandList W

/-- The `select` of lines 158-171: a ready case is taken (either one when both are ready),
`default` only when none is. -/
def selectNext (timerFired stopPending pickTimer : Bool) : IterExit :=
  if timerFired && stopPending then
    (if pickTimer then IterExit.timeout else IterExit.stop)
  else if timerFired then IterExit.timeout
  else if stopPending then IterExit.stop
  else IterExit.next

/-- The analyzer goroutine started by line 124, before it has received anything. -/
def analyzerStart {W : Type} (w : W) : AnalyzeResult W := ⟨AnalyzerState.init w, [], false⟩

/-- The analyzer after it has received `msg` on `msgChan` (line 59) and processed it.
`returned` says that it has left its loop through line 82 or 87: it is on its way to, or blocked
in, `stopChan <-`, and receives nothing more. -/
def deliver {W : Type} (tcl : CommandList W) (a : AnalyzeResult W) (msg : GoString) :
    AnalyzeResult W :=
  let r := analyzeMsg tcl a.state msg
  ⟨r.state, a.events ++ r.events, r.returned⟩

/-- Whether `<-stopChan` is ready at the `select`: the analyzer has left its loop and is blocked
in `stopChan <-`. -/
def stopPending {W : Type} (a : AnalyzeResult W) (env : IterEnv) : Bool :=
  a.returned && env.analyzerSettled

/-- Result of one pass of the reader loop: the buffer, the analyzer, the reader's events, and
how the pass goes. -/
structure PassResult (W : Type) where
  buf : List Nat
  analyzer : AnalyzeResult W
  events : List Event
  exit : IterExit

/-- The label `next:` (lines 157-171): the `select` and, in its `default` case, the sleep. -/
def endOfPass {W : Type} (buf : List Nat) (a : AnalyzeResult W) (env : IterEnv)
    (events : List Event) : PassResult W :=
  let ex := selectNext env.timerFired (stopPending a env) env.pickTimer
  ⟨buf, a, events ++ (if ex = IterExit.next then [Event.sleep 150] else []), ex⟩

/-- One pass of the `for` of lines 131-173 on the buffer `buf`, with the analyzer `a` at the other
end of the channels.  `trimSpace` is `strings.TrimSpace`.  The sends of lines 140 and 154 are
unbuffered: the reader reaches the send (recorded as `Event.send`), and the send completes when
the analyzer comes back to `<-msgChan`; when the analyzer has left its loop the send never
completes and the pass never ends (`IterExit.blocked`). -/
def readerIteration {W : Type} (tcl : CommandList W) (timeout : Nat)
    (trimSpace : GoString → GoString) (buf : List Nat) (a : AnalyzeResult W) (env : IterEnv) :
    PassResult W :=
  let n := min env.read.data.length buf.length
  let buf1 := env.read.data.take n ++ buf.drop n
  match buf1 with
  | [] => ⟨buf1, a, [Event.setReadDeadline], IterExit.panic⟩
  | b0 :: _ =>
    let err := if b0 = 4 then ReadErr.EOF else env.read.err
    if err ≠ ReadErr.nil then
      if err = ReadErr.EOF then
        if a.returned then
          ⟨buf1, a, [Event.setReadDeadline, Event.send exitMsg], IterExit.blocked⟩
        else
          endOfPass buf1 (deliver tcl a exitMsg) env
            [Event.setReadDeadline, Event.send exitMsg, Event.sleep 1000]
      else endOfPass buf1 a env [Event.setReadDeadline]
    else if n = 0 then endOfPass buf1 a env [Event.setReadDeadline]
    else if a.returned then
      ⟨buf1, a,
       [Event.setReadDeadline, Event.armTimer (idleDuration timeout),
        Event.send (trimSpace (buf1.take n))],
       IterExit.blocked⟩
    else
      endOfPass buf1 (deliver tcl a (trimSpace (buf1.take n))) env
        [Event.setReadDeadline, Event.armTimer (idleDuration timeout),
         Event.send (trimSpace (buf1.take n)), Event.sleep 250]

/-- Result of a run of the reader: its events, how it returned (`none`: it has not returned),
whether it is blocked for ever in a send on `msgChan`, and the analyzer. -/
structure ConnResult (W : Type) where
  events : List Event
  exit : Option IterExit
  blocked : Bool
  analyzer : AnalyzeResult W

/-- The `for` of lines 131-173 against a script of surroundings, one entry per pass.  When the
script is used up and the loop is still running, `exit` is `none` and `blocked` is `false`. -/
def readerLoop {W : Type} (tcl : CommandList W) (timeout : Nat)
    (trimSpace : GoString → GoString) :
    List Nat → AnalyzeResult W → List IterEnv → ConnResult W
  | _, a, [] => ⟨[], none, false, a⟩
  | buf, a, env :: rest =>
    let r := readerIteration tcl timeout trimSpace buf a env
    match r.exit with
    | IterExit.next =>
      let r2 := readerLoop tcl timeout trimSpace r.buf r.analyzer rest
      ⟨r.events ++ r2.events, r2.exit, r2.blocked, r2.analyzer⟩
    | IterExit.blocked => ⟨r.events, none, true, r.analyzer⟩
    | ex => ⟨r.events, some ex, false, r.analyzer⟩

/-- The deferred calls of lines 108-117, in the order they run (last registered first): the
recovery function, then `Dec("telnet_now_connect")`, then `connection.Close()`. -/
def deferredCalls (panicked : Bool) : List Event :=
  (if panicked then
      [Event.close, Event.statsDec telnetConnect, Event.statsInc telnetPanicRecover]
    else []) ++
  [Event.statsDec telnetNowConnect, Event.close]

/-- `handleConnection` together with the analyzer it starts on `server.TCL`; `w` is the state
handlers act on at the start.  The analyzer, just started, receives "help".  The events are
those of the body and, once the loop has ended, of the deferred calls; while the reader has not
returned (loop still running, or blocked in a send) no deferred call runs. -/
def handleConnection {W : Type} (server : ServerTelnet W) (trimSpace : GoString → GoString)
    (w : W) (script : List IterEnv) : ConnResult W :=
  let a0 := deliver server.TCL (analyzerStart w) helpMsg
  let r := readerLoop server.TCL server.Timeout trimSpace
    (List.replicate server.BufSize 0) a0 script
  let body :=
    [Event.armTimer (idleDuration server.Timeout), Event.goAnalyze, Event.send helpMsg] ++
      r.events
  match r.exit with
  | none => ⟨body, none, r.blocked, r.analyzer⟩
  | some ex => ⟨body ++ deferredCalls (decide (ex = IterExit.panic)), some ex, false, r.analyzer⟩

/-- The claimed framing of `SafetyWrite`, following the specification's words: for each string
the prefix, the string, a carriage return (13) and a newline (10). -/
def framedPerLine (a : List GoString) : GoString :=
  (a.map (fun s => telnetPrefix ++ s ++ [13, 10])).flatten

/-- The most recent message of `pre` that is not the escape sequence, following the
specification's words; the empty string when there is none. -/
def lastNonRepeat (pre : List GoString) : GoString :=
  ((pre.filter (fun m => !isRepeatSeq m)).getLast?).getD []

/-- A sample state type for handlers: a counter. -/
abbrev SampleWorld := Nat

/-- A sample command table: `help` (matches exactly "help"), `exit` (matches exactly "exit",
asks to terminate), and a catch-all for messages that start with `h`, whose handler fails. -/
def sampleTCL : CommandList SampleWorld :=
  [ { Name := helpMsg, RegExp := fun m => decide (m = helpMsg),
      Func := fun w _ => ⟨w + 1, false, false⟩ },
    { Name := exitMsg, RegExp := fun m => decide (m = exitMsg),
      Func := fun w _ => ⟨w, true, false⟩ },
    { Name := [104], RegExp := fun m => m.head? == some 104,
      Func := fun w _ => ⟨w + 100, false, true⟩ } ]

/-- A sample server: port 2323, idle timeout 60 s, read buffer of 16 bytes. -/
def sampleServer : ServerTelnet SampleWorld :=
  { Port := 2323, Timeout := 60, BufSize := 16, LogFile := [], TCL := sampleTCL }

/-- A command table without an entry for "exit": only `help`. -/
def helpOnlyTCL : CommandList SampleWorld :=
  [ { Name := helpMsg, RegExp := fun m => decide (m = helpMsg),
      Func := fun w _ => ⟨w + 1, false, false⟩ } ]

/-- A server whose table has no entry for "exit". -/
def helpOnlyServer : ServerTelnet SampleWorld :=
  { Port := 2323, Timeout := 60, BufSize := 16, LogFile := [], TCL := helpOnlyTCL }

/-- The sample server with `BufSize` 0: `make([]byte, 0)`, so that `buf[0]` panics. -/
def zeroBufServer : ServerTelnet SampleWorld :=
  { Port := 2323, Timeout := 60, BufSize := 0, LogFile := [], TCL := sampleTCL }

/-- A pass in which the read fails with a deadline expiry and delivers nothing, the timer has not
fired. -/
def idleEnv : IterEnv :=
  { read := { data := [], err := ReadErr.other },
    timerFired := false, analyzerSettled := true, pickTimer := false }

/-- A pass in which the read delivers nothing and reports no error (as for an empty buffer),
the timer has not fired. -/
def emptyReadEnv : IterEnv :=
  { read := { data := [], err := ReadErr.nil },
    timerFired := false, analyzerSettled := true, pickTimer := false }

/-- A pass in which the read delivers the single byte 0x04 without error and the timer has not
fired. -/
def ctrlDEnv : IterEnv :=
  { read := { data := [4], err := ReadErr.nil },
    timerFired := false, analyzerSettled := true, pickTimer := false }

/-- A pass in which the read delivers nothing and the idle timer has fired. -/
def firedEnv : IterEnv :=
  { read := { data := [], err := ReadErr.other },
    timerFired := true, analyzerSettled := true, pickTimer := false }

/-- A pass in which the read returns `n = 0` and `io.EOF` (the client has closed its side) and
the idle timer has fired. -/
def eofEnv : IterEnv :=
  { read := { data := [], err := ReadErr.EOF },
    timerFired := true, analyzerSettled := true, pickTimer := true }

/-- A command table with an entry for "exit" that asks to terminate and an entry for messages
that start with `h`, whose handler fails. -/
def failingHelpTCL : CommandList SampleWorld :=
  [ { Name := exitMsg, RegExp := fun m => decide (m = exitMsg),
      Func := fun w _ => ⟨w, true, false⟩ },
    { Name := [104], RegExp := fun m => m.head? == some 104,
      Func := fun w _ => ⟨w + 100, false, true⟩ } ]

/-- A server with idle timeout 1 s whose table fails on "help". -/
def failingHelpServer : ServerTelnet SampleWorld :=
  { Port := 2323, Timeout := 1, BufSize := 16, LogFile := [], TCL := failingHelpTCL }

/-- The durations of the timers armed in a trace. -/
def timerArms : List Event → List Int
  | [] => []
  | Event.armTimer d :: es => d :: timerArms es
  | _ :: es => timerArms es

/-- The number of `connection.Close()` calls in a trace. -/
def closeCalls : List Event → Nat
  | [] => 0
  | Event.close :: es => closeCalls es + 1
  | _ :: es => closeCalls es

/-- The number of `Dec(name)` calls in a trace. -/
def decCalls (name : GoString) : List Event → Nat
  | [] => 0
  | Event.statsDec n :: es => (if n = name then 1 else 0) + decCalls name es
  | _ :: es => decCalls name es

end Telnet

namespace Jsonnocomment

/-- The loop of lines 20-71 of `ReadFileAndCleanComment` on the bytes not yet read, with the
flags `commentLine` and `commentBlock`; the result is what is stored in `cleanFile` from the
current `j` on.  `c` is `file[i]`, `d` is `file[i+1]` (present when `i+1 < l`). -/
def cleanLoop : List Nat → Bool → Bool → List Nat
  | [], _, _ => []
  | [c], commentLine, commentBlock =>
    if c = 10 then [c]
    else if c = 47 then []
    else if c = 42 then []
    else if !commentLine && !commentBlock then [c] else []
  | c :: d :: rest, commentLine, commentBlock =>
    if c = 10 then c :: cleanLoop (d :: rest) false commentBlock
    else if c = 47 then
      if !commentLine && !commentBlock then
        if d = 47 then cleanLoop rest true commentBlock
        else if d = 42 then cleanLoop rest commentLine true
        else c :: cleanLoop (d :: rest) commentLine commentBlock
      else cleanLoop (d :: rest) commentLine commentBlock
    else if c = 42 then
      if !commentLine then
        if d = 47 then cleanLoop rest commentLine false
        else if !commentBlock then c :: cleanLoop (d :: rest) commentLine commentBlock
        else cleanLoop (d :: rest) commentLine commentBlock
      else cleanLoop (d :: rest) commentLine commentBlock
    else if !commentLine && !commentBlock then c :: cleanLoop (d :: rest) commentLine commentBlock
    else cleanLoop (d :: rest) commentLine commentBlock

/-- `ReadFileAndCleanComment`; `readFile` is `ioutil.ReadFile`. -/
def ReadFileAndCleanComment {ε : Type} (readFile : List Nat → Except ε (List Nat))
    (pathFile : List Nat) : Except ε (List Nat) :=
  match readFile pathFile with
  | Except.error err => Except.error err
  | Except.ok file => Except.ok (cleanLoop file false false)

/-- Whether the two bytes `a, b` occur next to each other in `file`. -/
def hasPair (a b : Nat) : List Nat → Bool
  | [] => false
  | [_] => false
  | x :: y :: rest => (x == a && y == b) || hasPair a b (y :: rest)

/-- The bytes of the JSON text `{"a":"*/"}`. -/
def sampleJson : List Nat := [123, 34, 97, 34, 58, 34, 42, 47, 34, 125]

/-- The bytes of the text `a/*x` newline `y*/b`: a block comment that spans two lines. -/
def sampleBlock : List Nat := [97, 47, 42, 120, 10, 121, 42, 47, 98]

end Jsonnocomment

namespace Email

/-- A Go `string` / `[]byte`: a sequence of bytes. -/
abbrev GoString := List Nat

/-- `mail.Address`. -/
structure Address where
  Name : GoString
  Address : GoString

/-- `Credentials`. -/
structure Credentials where
  Username : GoString
  Password : GoString
  ServerName : GoString
  Identity : GoString

/-- The functions `sendEmail` calls that are not part of the file: `mail.Address.String`,
`concat.Strings`, `concat.StringsMulti` (each from its list of arguments to its result) and the
host part of `net.SplitHostPort`. -/
structure Library where
  addressString : Address → GoString
  concatStrings : List GoString → GoString
  concatStringsMulti : List GoString → GoString
  splitHost : GoString → GoString

/-- The calls of `sendEmail` that can return an error. -/
inductive Step where
  | dial
  | newClient
  | auth
  | mail
  | rcpt
  | data
  | write
  | close
  | quit
  deriving DecidableEq, Repr

/-- The calls `sendEmail` makes to the network and the SMTP client, with their arguments. -/
inductive SmtpEvent where
  /-- The call `tls.Dial("tcp", c.ServerName, tlsconfig)`. -/
  | dial (serverName : GoString)
  /-- The call `smtp.NewClient(conn, host)`. -/
  | newClient (host : GoString)
  /-- The call `client.Auth(smtp.PlainAuth(c.Identity, c.Username, c.Password, host))`. -/
  | auth (identity username password host : GoString)
  /-- The call `client.Mail(from.Address)`. -/
  | mail (address : GoString)
  /-- The call `client.Rcpt(to.Address)`. -/
  | rcpt (address : GoString)
  /-- The call `client.Data()`. -/
  | data
  /-- The call `w.Write([]byte(message))` on the SMTP data stream. -/
  | write (bytes : GoString)
  /-- The call `w.Close()`. -/
  | close
  /-- The call `client.Quit()`. -/
  | quit
  deriving DecidableEq, Repr

/-- How `sendEmail` ends: `log.Panic(err)` after the failing call, or `return err`. -/
inductive Outcome where
  | panic (step : Step)
  | returned (err : Bool)
  deriving DecidableEq, Repr

/-- The literal `"from"`. -/
def fromKey : GoString := [102, 114, 111, 109]

/-- The literal `"to"`. -/
def toKey : GoString := [116, 111]

/-- The literal `"Subject"`. -/
def subjectKey : GoString := [83, 117, 98, 106, 101, 99, 116]

/-- The value `fmt.Sprintf("%s: %s\r\n", k, v)`. -/
def headerLine (k v : GoString) : GoString := k ++ [58, 32] ++ v ++ [13, 10]

/-- Lines 51-54: the entries of the map `headers`. -/
def headersOf (lib : Library) (fromAddr toAddr : Address) (subj : GoString) :
    List (GoString × GoString) :=
  [(fromKey, lib.addressString fromAddr), (toKey, lib.addressString toAddr), (subjectKey, subj)]

/-- Lines 57-61: the variable `message` after the set-up of the message.  It starts as `""`; the
calls `concat.Strings(message, ...)` and `concat.StringsMulti(message, "\r\n", body)` are
statements whose results are not assigned, so each leaves `message` as it is.  `headers` are the
map entries in the order `range` visits them. -/
def buildMessage (lib : Library) (headers : List (GoString × GoString)) (body : GoString) :
    GoString :=
  let message : GoString := []
  let message := headers.foldl
    (fun message kv =>
      let _ := lib.concatStrings [message, headerLine kv.1 kv.2]
      message)
    message
  let _ := lib.concatStringsMulti [message, [13, 10], body]
  message

/-- The message the claim describes, following its words: the three header lines, an empty line,
the body. -/
def describedMessage (lib : Library) (fromAddr toAddr : Address) (subj body : GoString) :
    GoString :=
  headerLine fromKey (lib.addressString fromAddr) ++ headerLine toKey (lib.addressString toAddr) ++
    headerLine subjectKey subj ++ [13, 10] ++ body

/-- The calls of lines 77-112 in order, each with the call that is recorded for it; a failing
call is followed by `log.Panic`.  The result is the calls made and the failing call, if any. -/
def runSteps (fails : Step → Bool) : List (Step × SmtpEvent) → List SmtpEvent × Option Step
  | [] => ([], none)
  | (st, ev) :: rest =>
    if fails st then ([ev], some st)
    else
      let r := runSteps fails rest
      (ev :: r.1, r.2)

/-- `sendEmail`.  `order` is the order in which `range headers` visits the map entries, `fails`
tells which calls return an error. -/
def sendEmail (lib : Library)
    (order : List (GoString × GoString) → List (GoString × GoString)) (fails : Step → Bool)
    (fromAddr toAddr : Address) (subj body : GoString) (c : Credentials) :
    List SmtpEvent × Outcome :=
  let message := buildMessage lib (order (headersOf lib fromAddr toAddr subj)) body
  let host := lib.splitHost c.ServerName
  let r := runSteps fails
    [(Step.dial, SmtpEvent.dial c.ServerName),
     (Step.newClient, SmtpEvent.newClient host),
     (Step.auth, SmtpEvent.auth c.Identity c.Username c.Password host),
     (Step.mail, SmtpEvent.mail fromAddr.Address),
     (Step.rcpt, SmtpEvent.rcpt toAddr.Address),
     (Step.data, SmtpEvent.data),
     (Step.write, SmtpEvent.write message),
     (Step.close, SmtpEvent.close)]
  match r.2 with
  | some st => (r.1, Outcome.panic st)
  | none => (r.1 ++ [SmtpEvent.quit], Outcome.returned (fails Step.quit))

/-- The byte slices written to the SMTP data stream in a trace. -/
def dataWrites : List SmtpEvent → List GoString
  | [] => []
  | SmtpEvent.write b :: es => b :: dataWrites es
  | _ :: es => dataWrites es

/-- A sample library: an address is rendered as `<address>`, the concatenation functions join
their arguments, the host is the server name up to the first colon. -/
def sampleLibrary : Library :=
  { addressString := fun a => [60] ++ a.Address ++ [62],
    concatStrings := fun args => args.flatten,
    concatStringsMulti := fun args => args.flatten,
    splitHost := fun s => s.takeWhile (fun b => b != 58) }

/-- The sender `a@x`. -/
def sampleFrom : Address := { Name := [], Address := [97, 64, 120] }

/-- The recipient `b@y`. -/
def sampleTo : Address := { Name := [], Address := [98, 64, 121] }

/-- Sample credentials for the server `s:465`. -/
def sampleCredentials : Credentials :=
  { Username := [117], Password := [112], ServerName := [115, 58, 52, 54, 53], Identity := [] }

end Email

/-! ## Facts about the literals and the scan -/

namespace Telnet

theorem literals_ascii :
    helpMsg = ascii "help" ∧ exitMsg = ascii "exit" ∧ upperQ = ascii "Q" ∧ lowerQ = ascii "q" ∧
    telnetPrefix = ascii "[Telnet]: " ∧ badCommandText = ascii "Bad command send!" ∧
    telnetNowConnect = ascii "telnet_now_connect" ∧ telnetConnect = ascii "telnet_connect" ∧
    telnetPanicRecover = ascii "telnet_panic_recover_handle_connection" := by
  decide

theorem isRepeatSeq_iff (msg : GoString) : isRepeatSeq msg = true ↔ msg = repeatSeq := by
  constructor
  · intro h
    match msg, h with
    | [a, b, c], h =>
      simp [isRepeatSeq] at h
      simp [repeatSeq, h]
    | [], h => simp [isRepeatSeq] at h
    | [_], h => simp [isRepeatSeq] at h
    | [_, _], h => simp [isRepeatSeq] at h
    | _ :: _ :: _ :: _ :: _, h => simp [isRepeatSeq] at h
  · rintro rfl
    decide

theorem scanTCL_noMatch {W : Type} (tcl : CommandList W) (idx : Nat) (w : W) (msg : GoString)
    (h : ∀ c ∈ tcl, c.RegExp msg = false) :
    scanTCL tcl idx w msg = ⟨w, [], true, false⟩ := by
  induction tcl generalizing idx with
  | nil => rfl
  | cons c rest ih =>
    have hc : c.RegExp msg = false := h c (List.mem_cons_self _ _)
    have hr : ∀ c ∈ rest, c.RegExp msg = false := fun d hd => h d (List.mem_cons_of_mem _ hd)
    simp [scanTCL, hc, ih (idx + 1) hr]

/-- The scan, described through the first matching entry. -/
theorem scanTCL_match {W : Type} (tcl : CommandList W) (idx : Nat) (w : W) (msg : GoString)
    (i : Nat) (hi : i < tcl.length) (hm : (tcl.get ⟨i, hi⟩).RegExp msg = true)
    (hfirst : ∀ j (hj : j < tcl.length), j < i → (tcl.get ⟨j, hj⟩).RegExp msg = false) :
    scanTCL tcl idx w msg =
      let r := (tcl.get ⟨i, hi⟩).Func w msg
      ⟨r.world,
       if r.err || r.exit then [Event.handler (idx + i) msg, Event.stop]
       else [Event.handler (idx + i) msg],
       false, r.err || r.exit⟩ := by
  induction tcl generalizing idx i with
  | nil => simp at hi
  | cons c rest ih =>
    cases i with
    | zero =>
      simp only [List.get_eq_getElem, List.getElem_cons_zero] at hm
      simp only [scanTCL, hm, List.get_eq_getElem, List.getElem_cons_zero, if_true, Nat.add_zero]
      cases (c.Func w msg).err <;> cases (c.Func w msg).exit <;> simp
    | succ k =>
      have hc : c.RegExp msg = false := by
        have := hfirst 0 (by simp) (Nat.succ_pos k)
        simpa using this
      have hk : k < rest.length := by simpa using hi
      have hm2 : (rest.get ⟨k, hk⟩).RegExp msg = true := by simpa using hm
      have hf2 : ∀ j (hj : j < rest.length), j < k → (rest.get ⟨j, hj⟩).RegExp msg = false := by
        intro j hj hjk
        have := hfirst (j + 1) (by simpa using hj) (by omega)
        simpa using this
      have := ih (idx + 1) k hk hm2 hf2
      simp only [scanTCL, hc, Bool.false_eq_true, if_false, this, List.get_eq_getElem,
        List.getElem_cons_succ]
      have e : idx + 1 + k = idx + (k + 1) := by omega
      simp [e]

/-- When some entry matches there is a first matching entry. -/
theorem exists_first_match {W : Type} (tcl : CommandList W) (msg : GoString)
    (h : ∃ c ∈ tcl, c.RegExp msg = true) :
    ∃ i, ∃ hi : i < tcl.length, (tcl.get ⟨i, hi⟩).RegExp msg = true ∧
      ∀ j (hj : j < tcl.length), j < i → (tcl.get ⟨j, hj⟩).RegExp msg = false := by
  induction tcl with
  | nil => simp at h
  | cons c rest ih =>
    by_cases hc : c.RegExp msg = true
    · exact ⟨0, by simp, by simpa using hc, fun j _ hj => absurd hj (Nat.not_lt_zero j)⟩
    · have hr : ∃ d ∈ rest, d.RegExp msg = true := by
        obtain ⟨d, hd, hdm⟩ := h
        rcases List.mem_cons.mp hd with rfl | hd2
        · exact absurd hdm hc
        · exact ⟨d, hd2, hdm⟩
      obtain ⟨i, hi, hm, hf⟩ := ih hr
      refine ⟨i + 1, by simpa using hi, by simpa using hm, ?_⟩
      intro j hj hji
      cases j with
      | zero => simpa using hc
      | succ k =>
        have := hf k (by simpa using hj) (by omega)
        simpa using this

theorem handlerCalls_append (xs ys : List Event) :
    handlerCalls (xs ++ ys) = handlerCalls xs ++ handlerCalls ys := by
  induction xs with
  | nil => rfl
  | cons e es ih => cases e <;> simp [handlerCalls, ih]

theorem writes_append (xs ys : List Event) : writes (xs ++ ys) = writes xs ++ writes ys := by
  induction xs with
  | nil => rfl
  | cons e es ih => cases e <;> simp [writes, ih]

theorem sends_append (xs ys : List Event) : sends (xs ++ ys) = sends xs ++ sends ys := by
  induction xs with
  | nil => rfl
  | cons e es ih => cases e <;> simp [sends, ih]

end Telnet

/-! ## The command analyzer -/

namespace Telnet

theorem scanTCL_calls_msg {W : Type} (tcl : CommandList W) (idx : Nat) (w : W) (msg : GoString) :
    ∀ c ∈ handlerCalls (scanTCL tcl idx w msg).events, c.2 = msg := by
  induction tcl generalizing idx with
  | nil => simp [scanTCL, handlerCalls]
  | cons c rest ih =>
    unfold scanTCL
    by_cases hc : c.RegExp msg = true
    · simp only [hc, if_true]
      cases (c.Func w msg).err <;> cases (c.Func w msg).exit <;> simp [handlerCalls]
    · simp only [hc, if_false]
      exact ih (idx + 1)

/-- C1. First-match-wins: when some entry of the table matches the effective message, the
pass for that message calls exactly one handler, the one of the matching entry with the
smallest index, with the effective message; the state handlers act on becomes what that
handler leaves. -/
theorem firstMatchWins {W : Type} (tcl : CommandList W) (st : AnalyzerState W) (msg : GoString)
    (h : ∃ c ∈ tcl, c.RegExp (effectiveMsg st.oldMsg msg) = true) :
    ∃ i, ∃ hi : i < tcl.length,
      (tcl.get ⟨i, hi⟩).RegExp (effectiveMsg st.oldMsg msg) = true ∧
      (∀ j (hj : j < tcl.length), j < i →
        (tcl.get ⟨j, hj⟩).RegExp (effectiveMsg st.oldMsg msg) = false) ∧
      handlerCalls (analyzeMsg tcl st msg).events = [(i, effectiveMsg st.oldMsg msg)] ∧
      (analyzeMsg tcl st msg).state.world =
        ((tcl.get ⟨i, hi⟩).Func st.world (effectiveMsg st.oldMsg msg)).world := by
  obtain ⟨i, hi, hm, hf⟩ := exists_first_match tcl _ h
  refine ⟨i, hi, hm, hf, ?_⟩
  have hs := scanTCL_match tcl 0 st.world _ i hi hm hf
  simp only [effectiveMsg] at hs hm hf ⊢
  simp only [analyzeMsg, hs]
  cases ((tcl.get ⟨i, hi⟩).Func st.world (aliasStep (repeatStep st.oldMsg msg).1)).err <;>
    cases ((tcl.get ⟨i, hi⟩).Func st.world (aliasStep (repeatStep st.oldMsg msg).1)).exit <;>
    simp [handlerCalls]

theorem firstMatchWins_witness :
    (∃ c ∈ sampleTCL, c.RegExp (effectiveMsg (AnalyzerState.init 0).oldMsg helpMsg) = true) ∧
    ∃ i, ∃ hi : i < sampleTCL.length,
      (sampleTCL.get ⟨i, hi⟩).RegExp (effectiveMsg (AnalyzerState.init 0).oldMsg helpMsg) = true ∧
      (∀ j (hj : j < sampleTCL.length), j < i →
        (sampleTCL.get ⟨j, hj⟩).RegExp
          (effectiveMsg (AnalyzerState.init 0).oldMsg helpMsg) = false) ∧
      handlerCalls (analyzeMsg sampleTCL (AnalyzerState.init 0) helpMsg).events =
        [(i, effectiveMsg (AnalyzerState.init 0).oldMsg helpMsg)] ∧
      (analyzeMsg sampleTCL (AnalyzerState.init 0) helpMsg).state.world =
        ((sampleTCL.get ⟨i, hi⟩).Func (AnalyzerState.init 0).world
          (effectiveMsg (AnalyzerState.init 0).oldMsg helpMsg)).world :=
  have h : ∃ c ∈ sampleTCL,
      c.RegExp (effectiveMsg (AnalyzerState.init 0).oldMsg helpMsg) = true :=
    ⟨sampleTCL.get ⟨2, by decide⟩, List.get_mem _ _ _, by decide⟩
  ⟨h, firstMatchWins sampleTCL (AnalyzerState.init 0) helpMsg h⟩

/-- C2, as the code has it.  When no entry matches the effective message, the pass calls no
handler and sends no stop signal; its only event is one write to the connection, whose bytes
contain "Bad command send!" and the effective text of the message, which is the message itself
unless the message is "q", "Q" or the escape sequence; the analyzer does not return and goes on
with the next message. -/
theorem unmatchedInput {W : Type} (tcl : CommandList W) (st : AnalyzerState W)
    (msg : GoString) (rest : List GoString)
    (h : ∀ c ∈ tcl, c.RegExp (effectiveMsg st.oldMsg msg) = false) :
    (analyzeMsg tcl st msg).events =
      [Event.write (SafetyWrite [badCommandNotice (effectiveMsg st.oldMsg msg)])] ∧
    badCommandText <:+: SafetyWrite [badCommandNotice (effectiveMsg st.oldMsg msg)] ∧
    effectiveMsg st.oldMsg msg <:+: SafetyWrite [badCommandNotice (effectiveMsg st.oldMsg msg)] ∧
    handlerCalls (analyzeMsg tcl st msg).events = [] ∧
    Event.stop ∉ (analyzeMsg tcl st msg).events ∧
    (analyzeMsg tcl st msg).returned = false ∧
    (analyzeMsg tcl st msg).state.world = st.world ∧
    (CommandAnalyze tcl st (msg :: rest)).events =
      (analyzeMsg tcl st msg).events ++
        (CommandAnalyze tcl (analyzeMsg tcl st msg).state rest).events ∧
    (CommandAnalyze tcl st (msg :: rest)).returned =
      (CommandAnalyze tcl (analyzeMsg tcl st msg).state rest).returned ∧
    (isRepeatSeq msg = false → isQuitAlias msg = false →
      effectiveMsg st.oldMsg msg = msg ∧
      msg <:+: SafetyWrite [badCommandNotice (effectiveMsg st.oldMsg msg)]) := by
  have hs := scanTCL_noMatch tcl 0 st.world _ h
  simp only [effectiveMsg] at hs ⊢
  have hr : (analyzeMsg tcl st msg).returned = false := by simp [analyzeMsg, hs]
  have he : (analyzeMsg tcl st msg).events =
      [Event.write (SafetyWrite [badCommandNotice (aliasStep (repeatStep st.oldMsg msg).1)])] := by
    simp [analyzeMsg, hs]
  have hin : aliasStep (repeatStep st.oldMsg msg).1 <:+:
      SafetyWrite [badCommandNotice (aliasStep (repeatStep st.oldMsg msg).1)] :=
    ⟨telnetPrefix ++ badCommandText ++ [32, 32, 45, 32], [32] ++ [10, 13],
      by simp [SafetyWrite, badCommandNotice]⟩
  refine ⟨he, ?_, hin, ?_, ?_, hr, ?_, ?_, ?_, ?_⟩
  · exact ⟨telnetPrefix, [32, 32, 45, 32] ++ (aliasStep (repeatStep st.oldMsg msg).1) ++ [32]
      ++ [10, 13], by simp [SafetyWrite, badCommandNotice]⟩
  · rw [he]; rfl
  · rw [he]; simp
  · simp [analyzeMsg, hs]
  · simp [CommandAnalyze, hr]
  · simp [CommandAnalyze, hr]
  · intro h1 h2
    have e : aliasStep (repeatStep st.oldMsg msg).1 = msg := by
      simp [repeatStep, aliasStep, h1, h2]
    rw [e] at hin
    exact ⟨e, by rw [e]; exact hin⟩

theorem unmatchedInput_witness :
    (∀ c ∈ sampleTCL, c.RegExp (effectiveMsg (AnalyzerState.init 0).oldMsg [122, 122, 122])
      = false) ∧
    (analyzeMsg sampleTCL (AnalyzerState.init 0) [122, 122, 122]).events =
      [Event.write (telnetPrefix ++ badCommandText ++ [32, 32, 45, 32] ++ [122, 122, 122] ++
        [32] ++ [10, 13])] ∧
    (analyzeMsg sampleTCL (AnalyzerState.init 0) [122, 122, 122]).returned = false :=
  have h : ∀ c ∈ sampleTCL,
      c.RegExp (effectiveMsg (AnalyzerState.init 0).oldMsg [122, 122, 122]) = false := by decide
  ⟨h, (unmatchedInput sampleTCL (AnalyzerState.init 0) [122, 122, 122] [] h).1,
    (unmatchedInput sampleTCL (AnalyzerState.init 0) [122, 122, 122] [] h).2.2.2.2.2.1⟩

/-- C2, as the claim states it, fails.  With a table that has no entry for "exit", the message
"q" has the effective text "exit", which matches no pattern; the one notice written contains
"exit" and does not contain the message "q".  In the same way the escape sequence received after
"zzz" is answered by a notice that contains "zzz" and not the escape sequence. -/
theorem unmatchedInput_counterexample :
    (∀ c ∈ helpOnlyTCL, c.RegExp (effectiveMsg (AnalyzerState.init 0).oldMsg lowerQ) = false) ∧
    (analyzeMsg helpOnlyTCL (AnalyzerState.init 0) lowerQ).events =
      [Event.write (telnetPrefix ++ badCommandText ++ [32, 32, 45, 32] ++ exitMsg ++ [32] ++
        [10, 13])] ∧
    ¬ (lowerQ <:+: telnetPrefix ++ badCommandText ++ [32, 32, 45, 32] ++ exitMsg ++ [32] ++
        [10, 13]) ∧
    (∀ c ∈ helpOnlyTCL, c.RegExp (effectiveMsg [122, 122, 122] repeatSeq) = false) ∧
    (analyzeMsg helpOnlyTCL ⟨1, [122, 122, 122], 0⟩ repeatSeq).events =
      [Event.write (telnetPrefix ++ badCommandText ++ [32, 32, 45, 32] ++ [122, 122, 122] ++
        [32] ++ [10, 13])] ∧
    ¬ (repeatSeq <:+: telnetPrefix ++ badCommandText ++ [32, 32, 45, 32] ++ [122, 122, 122] ++
        [32] ++ [10, 13]) := by
  refine ⟨by decide, by decide, ?_, by decide, by decide, ?_⟩
  · intro hin
    have hm : 113 ∈ telnetPrefix ++ badCommandText ++ [32, 32, 45, 32] ++ exitMsg ++ [32] ++
        [10, 13] := hin.subset (List.mem_singleton.mpr rfl)
    revert hm
    decide
  · intro hin
    have hm : 27 ∈ telnetPrefix ++ badCommandText ++ [32, 32, 45, 32] ++ [122, 122, 122] ++
        [32] ++ [10, 13] := hin.subset (List.mem_cons_self _ _)
    revert hm
    decide

/-- C3. Quit aliasing: in every state and for every table, the pass for "q" and the pass for
"Q" produce the same events (so the same entry is selected and the same stop signal or none is
sent), the same return decision and the same handler state as the pass for "exit", and every
handler called in them receives the text "exit". -/
theorem quitAliasing {W : Type} (tcl : CommandList W) (st : AnalyzerState W) :
    (analyzeMsg tcl st lowerQ).events = (analyzeMsg tcl st exitMsg).events ∧
    (analyzeMsg tcl st lowerQ).returned = (analyzeMsg tcl st exitMsg).returned ∧
    (analyzeMsg tcl st lowerQ).state.world = (analyzeMsg tcl st exitMsg).state.world ∧
    (analyzeMsg tcl st upperQ).events = (analyzeMsg tcl st exitMsg).events ∧
    (analyzeMsg tcl st upperQ).returned = (analyzeMsg tcl st exitMsg).returned ∧
    (analyzeMsg tcl st upperQ).state.world = (analyzeMsg tcl st exitMsg).state.world ∧
    (∀ c ∈ handlerCalls (analyzeMsg tcl st lowerQ).events, c.2 = exitMsg) ∧
    (∀ c ∈ handlerCalls (analyzeMsg tcl st upperQ).events, c.2 = exitMsg) ∧
    (∀ c ∈ handlerCalls (analyzeMsg tcl st exitMsg).events, c.2 = exitMsg) := by
  have e1 : aliasStep (repeatStep st.oldMsg lowerQ).1 = exitMsg := by
    simp [repeatStep, aliasStep, isRepeatSeq, isQuitAlias, lowerQ]
  have e2 : aliasStep (repeatStep st.oldMsg upperQ).1 = exitMsg := by
    simp [repeatStep, aliasStep, isRepeatSeq, isQuitAlias, upperQ]
  have e3 : aliasStep (repeatStep st.oldMsg exitMsg).1 = exitMsg := by
    simp [repeatStep, aliasStep, isRepeatSeq, isQuitAlias, exitMsg, upperQ, lowerQ]
  have key : ∀ m, aliasStep (repeatStep st.oldMsg m).1 = exitMsg →
      (analyzeMsg tcl st m).events = (analyzeMsg tcl st exitMsg).events ∧
      (analyzeMsg tcl st m).returned = (analyzeMsg tcl st exitMsg).returned ∧
      (analyzeMsg tcl st m).state.world = (analyzeMsg tcl st exitMsg).state.world ∧
      (∀ c ∈ handlerCalls (analyzeMsg tcl st m).events, c.2 = exitMsg) := by
    intro m hm
    have hc := scanTCL_calls_msg tcl 0 st.world exitMsg
    simp only [analyzeMsg, hm, e3]
    cases hr : (scanTCL tcl 0 st.world exitMsg).returned <;>
      cases hn : (scanTCL tcl 0 st.world exitMsg).noOneMatch <;>
      simp [handlerCalls_append, handlerCalls] <;> exact fun a b hab => hc (a, b) hab
  obtain ⟨a1, a2, a3, a4⟩ := key lowerQ e1
  obtain ⟨b1, b2, b3, b4⟩ := key upperQ e2
  obtain ⟨_, _, _, c4⟩ := key exitMsg e3
  exact ⟨a1, a2, a3, b1, b2, b3, a4, b4, c4⟩

end Telnet

/-! ## Repeat-last-command, termination of the analyzer, framing -/

namespace Telnet

theorem getLast?_cons_getD {α : Type} (a d : α) (l : List α) :
    ((a :: l).getLast?).getD d = (l.getLast?).getD a := by
  cases l with
  | nil => rfl
  | cons b t =>
    rw [List.getLast?_cons_cons]
    rcases hq : (b :: t).getLast? with _ | x
    · simp at hq
    · rfl

theorem CommandAnalyze_cons_returned {W : Type} (tcl : CommandList W) (st : AnalyzerState W)
    (m : GoString) (rest : List GoString) (hr : (analyzeMsg tcl st m).returned = true) :
    CommandAnalyze tcl st (m :: rest) = analyzeMsg tcl st m := by
  simp [CommandAnalyze, hr]

theorem CommandAnalyze_cons_continue {W : Type} (tcl : CommandList W) (st : AnalyzerState W)
    (m : GoString) (rest : List GoString) (hr : (analyzeMsg tcl st m).returned = false) :
    CommandAnalyze tcl st (m :: rest) =
      ⟨(CommandAnalyze tcl (analyzeMsg tcl st m).state rest).state,
       (analyzeMsg tcl st m).events ++ (CommandAnalyze tcl (analyzeMsg tcl st m).state rest).events,
       (CommandAnalyze tcl (analyzeMsg tcl st m).state rest).returned⟩ := by
  simp [CommandAnalyze, hr]

theorem analyzeMsg_oldMsg {W : Type} (tcl : CommandList W) (st : AnalyzerState W)
    (msg : GoString) :
    (analyzeMsg tcl st msg).state.oldMsg = (repeatStep st.oldMsg msg).2 := by
  simp only [analyzeMsg]
  split_ifs <;> rfl

/-- While the analyzer has not returned, `oldMsg` is the last received message that is not the
escape sequence (the entry value when there is none). -/
theorem CommandAnalyze_oldMsg {W : Type} (tcl : CommandList W) (st : AnalyzerState W)
    (pre : List GoString) (h : (CommandAnalyze tcl st pre).returned = false) :
    (CommandAnalyze tcl st pre).state.oldMsg =
      ((pre.filter (fun m => !isRepeatSeq m)).getLast?).getD st.oldMsg := by
  induction pre generalizing st with
  | nil => rfl
  | cons m rest ih =>
    by_cases hr : (analyzeMsg tcl st m).returned = true
    · simp [CommandAnalyze, hr] at h
    · simp only [Bool.not_eq_true] at hr
      rw [CommandAnalyze_cons_continue tcl st m rest hr] at h ⊢
      simp only at h ⊢
      rw [ih _ h, analyzeMsg_oldMsg]
      by_cases hm : isRepeatSeq m = true
      · simp [repeatStep, hm, List.filter]
      · have hm2 : isRepeatSeq m = false := by simpa using hm
        simp [repeatStep, hm2, List.filter, getLast?_cons_getD]

theorem isRepeatSeq_lastNonRepeat (pre : List GoString) :
    isRepeatSeq (lastNonRepeat pre) = false := by
  unfold lastNonRepeat
  cases hl : (pre.filter (fun m => !isRepeatSeq m)).getLast? with
  | none => rfl
  | some x =>
    have hx : x ∈ pre.filter (fun m => !isRepeatSeq m) := List.mem_of_getLast?_eq_some hl
    have := (List.mem_filter.mp hx).2
    simpa using this

theorem lastNonRepeat_snoc (pre : List GoString) (msg : GoString) :
    lastNonRepeat (pre ++ [msg]) = (repeatStep (lastNonRepeat pre) msg).2 := by
  unfold lastNonRepeat repeatStep
  by_cases hm : isRepeatSeq msg = true
  · simp [List.filter_append, List.filter, hm]
  · simp only [Bool.not_eq_true] at hm
    simp [List.filter_append, List.filter, hm]

theorem analyzeMsg_events_congr {W : Type} (tcl : CommandList W) (st : AnalyzerState W)
    (m1 m2 : GoString) (h : effectiveMsg st.oldMsg m1 = effectiveMsg st.oldMsg m2) :
    (analyzeMsg tcl st m1).events = (analyzeMsg tcl st m2).events := by
  simp only [effectiveMsg] at h
  simp only [analyzeMsg, h]
  split_ifs <;> rfl

theorem sends_endOfPass {W : Type} (buf : List Nat) (a : AnalyzeResult W) (env : IterEnv)
    (events : List Event) :
    sends (endOfPass buf a env events).events = sends events := by
  simp only [endOfPass]
  split_ifs <;> simp [sends_append, sends]

theorem endOfPass_analyzer {W : Type} (buf : List Nat) (a : AnalyzeResult W) (env : IterEnv)
    (events : List Event) : (endOfPass buf a env events).analyzer = a := rfl

theorem endOfPass_buf {W : Type} (buf : List Nat) (a : AnalyzeResult W) (env : IterEnv)
    (events : List Event) : (endOfPass buf a env events).buf = buf := rfl

theorem endOfPass_exit {W : Type} (buf : List Nat) (a : AnalyzeResult W) (env : IterEnv)
    (events : List Event) :
    (endOfPass buf a env events).exit =
      selectNext env.timerFired (stopPending a env) env.pickTimer := rfl

theorem sends_deferredCalls (panicked : Bool) : sends (deferredCalls panicked) = [] := by
  cases panicked <;> rfl

/-- The events of the reader loop start with those of its first pass, and after one pass the
analyzer is the one that pass leaves. -/
theorem readerLoop_cons_events {W : Type} (tcl : CommandList W) (timeout : Nat)
    (trimSpace : GoString → GoString) (buf : List Nat) (a : AnalyzeResult W) (env : IterEnv)
    (rest : List IterEnv) :
    ∃ tail, (readerLoop tcl timeout trimSpace buf a (env :: rest)).events =
      (readerIteration tcl timeout trimSpace buf a env).events ++ tail := by
  simp only [readerLoop]
  split
  · exact ⟨_, rfl⟩
  · exact ⟨[], by simp⟩
  · exact ⟨[], by simp⟩

theorem readerLoop_single_analyzer {W : Type} (tcl : CommandList W) (timeout : Nat)
    (trimSpace : GoString → GoString) (buf : List Nat) (a : AnalyzeResult W) (env : IterEnv) :
    (readerLoop tcl timeout trimSpace buf a [env]).analyzer =
      (readerIteration tcl timeout trimSpace buf a env).analyzer := by
  simp only [readerLoop]
  split <;> rfl

/-- The events of `handleConnection`: the three statements before the loop, the loop, and then
deferred calls, which send nothing. -/
theorem handleConnection_events {W : Type} (server : ServerTelnet W)
    (trimSpace : GoString → GoString) (w : W) (script : List IterEnv) :
    ∃ tail, sends tail = [] ∧ (handleConnection server trimSpace w script).events =
      [Event.armTimer (idleDuration server.Timeout), Event.goAnalyze, Event.send helpMsg] ++
        (readerLoop server.TCL server.Timeout trimSpace (List.replicate server.BufSize 0)
          (deliver server.TCL (analyzerStart w) helpMsg) script).events ++ tail := by
  unfold handleConnection
  simp only
  split
  · exact ⟨[], rfl, by simp⟩
  · rename_i ex _
    exact ⟨deferredCalls (decide (ex = IterExit.panic)), sends_deferredCalls _, by simp⟩

theorem handleConnection_analyzer {W : Type} (server : ServerTelnet W)
    (trimSpace : GoString → GoString) (w : W) (script : List IterEnv) :
    (handleConnection server trimSpace w script).analyzer =
      (readerLoop server.TCL server.Timeout trimSpace (List.replicate server.BufSize 0)
        (deliver server.TCL (analyzerStart w) helpMsg) script).analyzer := by
  unfold handleConnection
  simp only
  split <;> rfl

theorem sends_handleConnection_head {W : Type} (server : ServerTelnet W)
    (trimSpace : GoString → GoString) (w : W) (script : List IterEnv) :
    (sends (handleConnection server trimSpace w script).events).head? = some helpMsg := by
  obtain ⟨tail, _, he⟩ := handleConnection_events server trimSpace w script
  rw [he]
  simp [sends]

/-- A first pass whose read delivers the three escape bytes without error into a buffer of at
least three bytes: the reader sends them on (when trimming leaves them unchanged), and an
analyzer that is still in its loop receives them. -/
theorem readerIteration_escape {W : Type} (tcl : CommandList W) (timeout : Nat)
    (trimSpace : GoString → GoString) (k : Nat) (a : AnalyzeResult W) (env : IterEnv)
    (hd : env.read.data = repeatSeq) (he : env.read.err = ReadErr.nil)
    (ht : trimSpace repeatSeq = repeatSeq) :
    sends (readerIteration tcl timeout trimSpace (List.replicate (k + 3) 0) a env).events =
      [repeatSeq] ∧
    (a.returned = false →
      (readerIteration tcl timeout trimSpace (List.replicate (k + 3) 0) a env).analyzer =
        deliver tcl a repeatSeq) := by
  unfold readerIteration
  simp only [hd, he]
  have e1 : min repeatSeq.length (List.replicate (k + 3) 0).length = 3 := by
    simp [repeatSeq]
  simp only [e1]
  simp only [repeatSeq, List.take, List.replicate, List.drop, List.cons_append,
    List.nil_append] at ht ⊢
  simp only [ht]
  cases hr : a.returned
  · simp [sends_endOfPass, endOfPass_analyzer, sends]
    split_ifs <;> rfl
  · simp [sends]

/-- C4. Repeat-last-command.  While the analyzer runs, the remembered message is the most recent
received message that is not the escape sequence `27, 91, 65` (the empty string before any such
message); the escape sequence is replaced by the remembered message and leaves it unchanged; every
other message is kept and becomes the remembered message.  `handleConnection` sends "help" first
and forwards a first read of the three escape bytes unchanged (when trimming leaves them
unchanged); the analyzer dispatches the escape sequence that follows "help" as "help", so that in
such a run, when the handling of "help" lets the analyzer go on, the analyzer's events are those
of two passes for "help". -/
theorem repeatLastCommand {W : Type} (tcl : CommandList W) (w : W) (pre : List GoString)
    (msg : GoString)
    (h : (CommandAnalyze tcl (AnalyzerState.init w) pre).returned = false) :
    (CommandAnalyze tcl (AnalyzerState.init w) pre).state.oldMsg = lastNonRepeat pre ∧
    repeatStep (lastNonRepeat pre) repeatSeq = (lastNonRepeat pre, lastNonRepeat pre) ∧
    (msg ≠ repeatSeq → repeatStep (lastNonRepeat pre) msg = (msg, msg)) ∧
    (analyzeMsg tcl (CommandAnalyze tcl (AnalyzerState.init w) pre).state msg).state.oldMsg =
      lastNonRepeat (pre ++ [msg]) ∧
    (analyzeMsg tcl (CommandAnalyze tcl (AnalyzerState.init w) pre).state repeatSeq).events =
      (analyzeMsg tcl (CommandAnalyze tcl (AnalyzerState.init w) pre).state
        (lastNonRepeat pre)).events ∧
    (∀ (server : ServerTelnet W) (trimSpace : GoString → GoString) (w2 : W)
      (script : List IterEnv),
      (sends (handleConnection server trimSpace w2 script).events).head? = some helpMsg) ∧
    (∀ (server : ServerTelnet W) (trimSpace : GoString → GoString) (w2 : W) (env : IterEnv)
      (script : List IterEnv), 3 ≤ server.BufSize → env.read.data = repeatSeq →
      env.read.err = ReadErr.nil → trimSpace repeatSeq = repeatSeq →
      (sends (handleConnection server trimSpace w2 (env :: script)).events).take 2 =
        [helpMsg, repeatSeq]) ∧
    (∀ (server : ServerTelnet W) (trimSpace : GoString → GoString) (w2 : W) (env : IterEnv),
      3 ≤ server.BufSize → env.read.data = repeatSeq →
      env.read.err = ReadErr.nil → trimSpace repeatSeq = repeatSeq →
      (analyzeMsg server.TCL (AnalyzerState.init w2) helpMsg).returned = false →
      (handleConnection server trimSpace w2 [env]).analyzer.events =
        (analyzeMsg server.TCL (AnalyzerState.init w2) helpMsg).events ++
        (analyzeMsg server.TCL (analyzeMsg server.TCL (AnalyzerState.init w2) helpMsg).state
          helpMsg).events) ∧
    effectiveMsg (analyzeMsg tcl (AnalyzerState.init w) helpMsg).state.oldMsg repeatSeq
      = helpMsg ∧
    ((analyzeMsg tcl (AnalyzerState.init w) helpMsg).returned = false →
      (CommandAnalyze tcl (AnalyzerState.init w) [helpMsg, repeatSeq]).events =
        (analyzeMsg tcl (AnalyzerState.init w) helpMsg).events ++
        (analyzeMsg tcl (analyzeMsg tcl (AnalyzerState.init w) helpMsg).state helpMsg).events) := by
  have hold := CommandAnalyze_oldMsg tcl (AnalyzerState.init w) pre h
  have hold2 : (CommandAnalyze tcl (AnalyzerState.init w) pre).state.oldMsg =
      lastNonRepeat pre := hold
  have hst1 : (analyzeMsg tcl (AnalyzerState.init w) helpMsg).state.oldMsg = helpMsg := by
    rw [analyzeMsg_oldMsg]; rfl
  have hhelp : ∀ (tcl2 : CommandList W) (w2 : W),
      (analyzeMsg tcl2 (analyzeMsg tcl2 (AnalyzerState.init w2) helpMsg).state repeatSeq).events =
      (analyzeMsg tcl2 (analyzeMsg tcl2 (AnalyzerState.init w2) helpMsg).state helpMsg).events := by
    intro tcl2 w2
    apply analyzeMsg_events_congr
    have : (analyzeMsg tcl2 (AnalyzerState.init w2) helpMsg).state.oldMsg = helpMsg := by
      rw [analyzeMsg_oldMsg]; rfl
    rw [this]; decide
  refine ⟨hold2, ?_, ?_, ?_, ?_, ?_, ?_, ?_, ?_, ?_⟩
  · have : isRepeatSeq repeatSeq = true := by decide
    simp [repeatStep, this]
  · intro hne
    have : isRepeatSeq msg = false := by
      cases hb : isRepeatSeq msg with
      | false => rfl
      | true => exact absurd ((isRepeatSeq_iff msg).mp hb) hne
    simp [repeatStep, this]
  · rw [analyzeMsg_oldMsg, hold2, lastNonRepeat_snoc]
  · apply analyzeMsg_events_congr
    have h1 : isRepeatSeq repeatSeq = true := by decide
    simp [effectiveMsg, repeatStep, h1, hold2, isRepeatSeq_lastNonRepeat]
  · exact fun server trimSpace w2 script =>
      sends_handleConnection_head server trimSpace w2 script
  · intro server trimSpace w2 env script hb hd he ht
    obtain ⟨k, hk⟩ : ∃ k, server.BufSize = k + 3 := ⟨server.BufSize - 3, by omega⟩
    obtain ⟨tail, _, hev⟩ := handleConnection_events server trimSpace w2 (env :: script)
    obtain ⟨tail2, hl⟩ := readerLoop_cons_events server.TCL server.Timeout trimSpace
      (List.replicate server.BufSize 0) (deliver server.TCL (analyzerStart w2) helpMsg) env script
    have hp := (readerIteration_escape server.TCL server.Timeout trimSpace k
      (deliver server.TCL (analyzerStart w2) helpMsg) env hd he ht).1
    rw [hev, hl, hk]
    simp [sends_append, sends, hp]
  · intro server trimSpace w2 env hb hd he ht hr
    obtain ⟨k, hk⟩ : ∃ k, server.BufSize = k + 3 := ⟨server.BufSize - 3, by omega⟩
    have hr2 : (deliver server.TCL (analyzerStart w2) helpMsg).returned = false := hr
    have hp := (readerIteration_escape server.TCL server.Timeout trimSpace k
      (deliver server.TCL (analyzerStart w2) helpMsg) env hd he ht).2 hr2
    rw [handleConnection_analyzer, readerLoop_single_analyzer, hk, hp]
    simp only [deliver, analyzerStart, List.nil_append]
    rw [hhelp server.TCL w2]
  · rw [hst1]; decide
  · intro hr
    have hE : (analyzeMsg tcl (analyzeMsg tcl (AnalyzerState.init w) helpMsg).state
        repeatSeq).events =
        (analyzeMsg tcl (analyzeMsg tcl (AnalyzerState.init w) helpMsg).state helpMsg).events := by
      apply analyzeMsg_events_congr
      rw [hst1]; decide
    rw [CommandAnalyze_cons_continue tcl _ helpMsg [repeatSeq] hr]
    simp only
    rw [← hE]
    by_cases h2 : (analyzeMsg tcl (analyzeMsg tcl (AnalyzerState.init w) helpMsg).state
        repeatSeq).returned = true
    · rw [CommandAnalyze_cons_returned _ _ _ _ h2]
    · simp only [Bool.not_eq_true] at h2
      rw [CommandAnalyze_cons_continue _ _ _ _ h2]
      simp [CommandAnalyze]

theorem repeatLastCommand_witness :
    (CommandAnalyze sampleTCL (AnalyzerState.init 0) [helpMsg]).returned = false ∧
    (CommandAnalyze sampleTCL (AnalyzerState.init 0) [helpMsg]).state.oldMsg =
      lastNonRepeat [helpMsg] ∧
    (analyzeMsg sampleTCL (CommandAnalyze sampleTCL (AnalyzerState.init 0) [helpMsg]).state
        repeatSeq).events =
      (analyzeMsg sampleTCL (CommandAnalyze sampleTCL (AnalyzerState.init 0) [helpMsg]).state
        (lastNonRepeat [helpMsg])).events :=
  have h : (CommandAnalyze sampleTCL (AnalyzerState.init 0) [helpMsg]).returned = false := by
    decide
  ⟨h, (repeatLastCommand sampleTCL 0 [helpMsg] repeatSeq h).1,
    (repeatLastCommand sampleTCL 0 [helpMsg] repeatSeq h).2.2.2.2.1⟩

/-- The scan, described through `List.find?`: it returns exactly when the first matching entry's
handler reports an error or asks to terminate, and then has sent one stop signal. -/
theorem scanTCL_find {W : Type} (tcl : CommandList W) (idx : Nat) (w : W) (msg : GoString) :
    (scanTCL tcl idx w msg).returned =
      (match tcl.find? (fun c => c.RegExp msg) with
       | none => false
       | some c => (c.Func w msg).err || (c.Func w msg).exit) ∧
    (scanTCL tcl idx w msg).events.count Event.stop =
      (if (scanTCL tcl idx w msg).returned then 1 else 0) := by
  induction tcl generalizing idx with
  | nil => simp [scanTCL]
  | cons c rest ih =>
    unfold scanTCL
    by_cases hc : c.RegExp msg = true
    · simp only [hc, if_true, List.find?_cons_of_pos]
      cases (c.Func w msg).err <;> cases (c.Func w msg).exit <;> simp [List.count_cons]
    · simp only [hc, if_false]
      rw [List.find?_cons_of_neg _ (by simpa using hc)]
      exact ih (idx + 1)

theorem analyzeMsg_returned {W : Type} (tcl : CommandList W) (st : AnalyzerState W)
    (msg : GoString) :
    (analyzeMsg tcl st msg).returned =
      (scanTCL tcl 0 st.world (effectiveMsg st.oldMsg msg)).returned := by
  simp only [analyzeMsg, effectiveMsg]
  split_ifs with h1 h2 <;> simp_all

theorem analyzeMsg_stops {W : Type} (tcl : CommandList W) (st : AnalyzerState W)
    (msg : GoString) :
    (analyzeMsg tcl st msg).events.count Event.stop =
      (if (analyzeMsg tcl st msg).returned then 1 else 0) := by
  have h := (scanTCL_find tcl 0 st.world (aliasStep (repeatStep st.oldMsg msg).1)).2
  simp only [analyzeMsg]
  split_ifs with h1 h2 <;> simp_all [List.count_append, List.count_cons]

theorem CommandAnalyze_stops {W : Type} (tcl : CommandList W) (st : AnalyzerState W)
    (msgs : List GoString) :
    (CommandAnalyze tcl st msgs).events.count Event.stop =
      (if (CommandAnalyze tcl st msgs).returned then 1 else 0) := by
  induction msgs generalizing st with
  | nil => simp [CommandAnalyze]
  | cons m rest ih =>
    by_cases hr : (analyzeMsg tcl st m).returned = true
    · rw [CommandAnalyze_cons_returned tcl st m rest hr]
      exact analyzeMsg_stops tcl st m
    · simp only [Bool.not_eq_true] at hr
      rw [CommandAnalyze_cons_continue tcl st m rest hr]
      have h1 := analyzeMsg_stops tcl st m
      simp only [hr, Bool.false_eq_true, if_false] at h1
      simp only [List.count_append, h1, ih, Nat.zero_add]

/-- C5. Analyzer termination.  The pass for a message makes `CommandAnalyze` return exactly when
the selected entry (the first one whose pattern matches the effective message) has a handler that
returns an error or a non-nil terminate value; the pass sends one stop signal when it returns and
none otherwise; after a returning pass no later message is processed (the run is that pass);
after a non-returning pass the next message is processed; a whole run sends one stop signal when
it returns and none otherwise. -/
theorem analyzerTermination {W : Type} (tcl : CommandList W) (st : AnalyzerState W)
    (msg : GoString) (rest : List GoString) :
    ((analyzeMsg tcl st msg).returned = true ↔
      ∃ c, tcl.find? (fun c => c.RegExp (effectiveMsg st.oldMsg msg)) = some c ∧
        ((c.Func st.world (effectiveMsg st.oldMsg msg)).err = true ∨
         (c.Func st.world (effectiveMsg st.oldMsg msg)).exit = true)) ∧
    (analyzeMsg tcl st msg).events.count Event.stop =
      (if (analyzeMsg tcl st msg).returned then 1 else 0) ∧
    ((analyzeMsg tcl st msg).returned = true →
      CommandAnalyze tcl st (msg :: rest) = analyzeMsg tcl st msg) ∧
    ((analyzeMsg tcl st msg).returned = false →
      (CommandAnalyze tcl st (msg :: rest)).events =
        (analyzeMsg tcl st msg).events ++
          (CommandAnalyze tcl (analyzeMsg tcl st msg).state rest).events ∧
      (CommandAnalyze tcl st (msg :: rest)).returned =
        (CommandAnalyze tcl (analyzeMsg tcl st msg).state rest).returned) ∧
    (CommandAnalyze tcl st (msg :: rest)).events.count Event.stop =
      (if (CommandAnalyze tcl st (msg :: rest)).returned then 1 else 0) := by
  refine ⟨?_, analyzeMsg_stops tcl st msg, ?_, ?_, CommandAnalyze_stops tcl st (msg :: rest)⟩
  · rw [analyzeMsg_returned, (scanTCL_find tcl 0 st.world _).1]
    cases hf : tcl.find? (fun c => c.RegExp (effectiveMsg st.oldMsg msg)) with
    | none => simp
    | some c => simp
  · exact fun hr => CommandAnalyze_cons_returned tcl st msg rest hr
  · intro hr
    rw [CommandAnalyze_cons_continue tcl st msg rest hr]
    exact ⟨rfl, rfl⟩

theorem SafetyWrite_foldl (a : List GoString) (acc : GoString) :
    a.foldl (fun bytes arg => (bytes ++ arg) ++ [10, 13]) acc =
      acc ++ (a.map (fun s => s ++ [10, 13])).flatten := by
  induction a generalizing acc with
  | nil => simp
  | cons s rest ih =>
    rw [List.foldl_cons, ih]
    simp [List.append_assoc]

/-- What `SafetyWrite` writes: the prefix once, then each string followed by the bytes 10, 13. -/
theorem SafetyWrite_eq (a : List GoString) :
    SafetyWrite a = telnetPrefix ++ (a.map (fun s => s ++ [10, 13])).flatten := by
  unfold SafetyWrite
  exact SafetyWrite_foldl a telnetPrefix

/-- C6, as the code has it by design.  The bytes `SafetyWrite` hands to the connection are the
prefix "[Telnet]: " once, at the start, followed, for each string in order, by that string and a
two-byte line terminator made of a carriage return (byte 13) and a newline (byte 10), the same
for every string. -/
theorem safetyWriteFraming :
    ∃ t : GoString, t.Perm [13, 10] ∧
      ∀ a : List GoString, SafetyWrite a = telnetPrefix ++ (a.map (fun s => s ++ t)).flatten :=
  ⟨[10, 13], List.Perm.swap 13 10 [], SafetyWrite_eq⟩

/-- C6, as the claim states it, fails: for the two strings "a" and "b" the prefix is written once,
not once per string, so that the bytes written differ from the claimed framing whichever order
the two terminator bytes have. -/
theorem safetyWriteFraming_counterexample :
    SafetyWrite [[97], [98]] ≠ framedPerLine [[97], [98]] ∧
    (SafetyWrite [[97], [98]]).length = 16 ∧ (framedPerLine [[97], [98]]).length = 26 ∧
    (∀ t : GoString, t.Perm [13, 10] →
      SafetyWrite [[97], [98]] ≠
        ([[97], [98]].map (fun s => telnetPrefix ++ s ++ t)).flatten) := by
  refine ⟨by decide, by decide, by decide, ?_⟩
  intro t ht heq
  have hl := congrArg List.length heq
  have h2 : t.length = 2 := ht.length_eq
  simp [h2, SafetyWrite, telnetPrefix] at hl

/-! ## The connection reader -/

theorem closeCalls_append (xs ys : List Event) :
    closeCalls (xs ++ ys) = closeCalls xs + closeCalls ys := by
  induction xs with
  | nil => simp [closeCalls]
  | cons e es ih =>
    cases e <;> simp [closeCalls, ih]
    omega

theorem decCalls_append (name : GoString) (xs ys : List Event) :
    decCalls name (xs ++ ys) = decCalls name xs + decCalls name ys := by
  induction xs with
  | nil => simp [decCalls]
  | cons e es ih =>
    cases e <;> simp [decCalls, ih]
    omega

theorem timerArms_append (xs ys : List Event) :
    timerArms (xs ++ ys) = timerArms xs ++ timerArms ys := by
  induction xs with
  | nil => rfl
  | cons e es ih => cases e <;> simp [timerArms, ih]

theorem endOfPass_no_teardown {W : Type} (buf : List Nat) (a : AnalyzeResult W) (env : IterEnv)
    (events : List Event) (name : GoString) :
    closeCalls (endOfPass buf a env events).events = closeCalls events ∧
    decCalls name (endOfPass buf a env events).events = decCalls name events ∧
    timerArms (endOfPass buf a env events).events = timerArms events := by
  simp only [endOfPass]
  split_ifs <;> simp [closeCalls_append, decCalls_append, timerArms_append, closeCalls, decCalls,
    timerArms]

/-- A pass of the reader loop closes nothing and decrements nothing. -/
theorem readerIteration_no_teardown {W : Type} (tcl : CommandList W) (timeout : Nat)
    (trimSpace : GoString → GoString) (buf : List Nat) (a : AnalyzeResult W) (env : IterEnv)
    (name : GoString) :
    closeCalls (readerIteration tcl timeout trimSpace buf a env).events = 0 ∧
    decCalls name (readerIteration tcl timeout trimSpace buf a env).events = 0 := by
  unfold readerIteration
  simp only
  split
  · simp [closeCalls, decCalls]
  · split_ifs <;>
      first
      | simp [closeCalls, decCalls]; done
      | (rw [(endOfPass_no_teardown _ _ _ _ name).1, (endOfPass_no_teardown _ _ _ _ name).2.1]
         simp [closeCalls, decCalls])

theorem readerLoop_cons_next {W : Type} (tcl : CommandList W) (timeout : Nat)
    (trimSpace : GoString → GoString) (buf : List Nat) (a : AnalyzeResult W) (env : IterEnv)
    (rest : List IterEnv)
    (h : (readerIteration tcl timeout trimSpace buf a env).exit = IterExit.next) :
    readerLoop tcl timeout trimSpace buf a (env :: rest) =
      ⟨(readerIteration tcl timeout trimSpace buf a env).events ++
        (readerLoop tcl timeout trimSpace (readerIteration tcl timeout trimSpace buf a env).buf
          (readerIteration tcl timeout trimSpace buf a env).analyzer rest).events,
       (readerLoop tcl timeout trimSpace (readerIteration tcl timeout trimSpace buf a env).buf
          (readerIteration tcl timeout trimSpace buf a env).analyzer rest).exit,
       (readerLoop tcl timeout trimSpace (readerIteration tcl timeout trimSpace buf a env).buf
          (readerIteration tcl timeout trimSpace buf a env).analyzer rest).blocked,
       (readerLoop tcl timeout trimSpace (readerIteration tcl timeout trimSpace buf a env).buf
          (readerIteration tcl timeout trimSpace buf a env).analyzer rest).analyzer⟩ := by
  simp only [readerLoop, h]

theorem readerLoop_cons_blocked {W : Type} (tcl : CommandList W) (timeout : Nat)
    (trimSpace : GoString → GoString) (buf : List Nat) (a : AnalyzeResult W) (env : IterEnv)
    (rest : List IterEnv)
    (h : (readerIteration tcl timeout trimSpace buf a env).exit = IterExit.blocked) :
    readerLoop tcl timeout trimSpace buf a (env :: rest) =
      ⟨(readerIteration tcl timeout trimSpace buf a env).events, none, true,
       (readerIteration tcl timeout trimSpace buf a env).analyzer⟩ := by
  simp only [readerLoop, h]

theorem readerLoop_cons_exit {W : Type} (tcl : CommandList W) (timeout : Nat)
    (trimSpace : GoString → GoString) (buf : List Nat) (a : AnalyzeResult W) (env : IterEnv)
    (rest : List IterEnv)
    (h1 : (readerIteration tcl timeout trimSpace buf a env).exit ≠ IterExit.next)
    (h2 : (readerIteration tcl timeout trimSpace buf a env).exit ≠ IterExit.blocked) :
    readerLoop tcl timeout trimSpace buf a (env :: rest) =
      ⟨(readerIteration tcl timeout trimSpace buf a env).events,
       some (readerIteration tcl timeout trimSpace buf a env).exit, false,
       (readerIteration tcl timeout trimSpace buf a env).analyzer⟩ := by
  simp only [readerLoop]

/-- The reader loop closes nothing and decrements nothing, and when it ends it ends through the
timer case, the stop case or a panic. -/
theorem readerLoop_no_teardown {W : Type} (tcl : CommandList W) (timeout : Nat)
    (trimSpace : GoString → GoString) (buf : List Nat) (a : AnalyzeResult W)
    (script : List IterEnv) (name : GoString) :
    closeCalls (readerLoop tcl timeout trimSpace buf a script).events = 0 ∧
    decCalls name (readerLoop tcl timeout trimSpace buf a script).events = 0 ∧
    (readerLoop tcl timeout trimSpace buf a script).exit ≠ some IterExit.next ∧
    (readerLoop tcl timeout trimSpace buf a script).exit ≠ some IterExit.blocked := by
  induction script generalizing buf a with
  | nil => simp [readerLoop, closeCalls, decCalls]
  | cons env rest ih =>
    have h1 := readerIteration_no_teardown tcl timeout trimSpace buf a env name
    by_cases hn : (readerIteration tcl timeout trimSpace buf a env).exit = IterExit.next
    · rw [readerLoop_cons_next _ _ _ _ _ _ _ hn]
      have h2 := ih (readerIteration tcl timeout trimSpace buf a env).buf
        (readerIteration tcl timeout trimSpace buf a env).analyzer
      simp only [closeCalls_append, decCalls_append, h1.1, h1.2, h2.1, h2.2.1]
      exact ⟨trivial, trivial, h2.2.2.1, h2.2.2.2⟩
    · by_cases hb : (readerIteration tcl timeout trimSpace buf a env).exit = IterExit.blocked
      · rw [readerLoop_cons_blocked _ _ _ _ _ _ _ hb]
        simp [h1.1, h1.2]
      · rw [readerLoop_cons_exit _ _ _ _ _ _ _ hn hb]
        simp only [ne_eq, Option.some.injEq]
        exact ⟨h1.1, h1.2, hn, hb⟩

/-- The `Close` calls of `handleConnection` are those of the deferred calls. -/
theorem closeCalls_handleConnection {W : Type} (server : ServerTelnet W)
    (trimSpace : GoString → GoString) (w : W) (script : List IterEnv) (ex : IterExit)
    (h : (handleConnection server trimSpace w script).exit = some ex) :
    closeCalls (handleConnection server trimSpace w script).events =
      closeCalls (deferredCalls (decide (ex = IterExit.panic))) := by
  have hl := readerLoop_no_teardown server.TCL server.Timeout trimSpace
    (List.replicate server.BufSize 0) (deliver server.TCL (analyzerStart w) helpMsg) script
    telnetNowConnect
  unfold handleConnection at h ⊢
  simp only at h ⊢
  split at h
  · simp at h
  · rename_i e hx
    simp only [Option.some.injEq] at h
    subst h
    simp only [hx, closeCalls_append, hl.1]
    simp [closeCalls]

/-- While `handleConnection` has not returned, nothing is closed and nothing is decremented. -/
theorem handleConnection_not_returned {W : Type} (server : ServerTelnet W)
    (trimSpace : GoString → GoString) (w : W) (script : List IterEnv)
    (h : (handleConnection server trimSpace w script).exit = none) :
    closeCalls (handleConnection server trimSpace w script).events = 0 ∧
    decCalls telnetNowConnect (handleConnection server trimSpace w script).events = 0 := by
  have hl := readerLoop_no_teardown server.TCL server.Timeout trimSpace
    (List.replicate server.BufSize 0) (deliver server.TCL (analyzerStart w) helpMsg) script
    telnetNowConnect
  unfold handleConnection at h ⊢
  simp only at h ⊢
  split at h
  · rename_i hx
    simp only [hx, closeCalls_append, decCalls_append, hl.1, hl.2.1]
    simp [closeCalls, decCalls]
  · simp at h

/-- C7, as the code has it.  Whenever `handleConnection` ends (idle timer, stop signal, or a
recovered panic), `telnet_now_connect` is decremented exactly once; `connection.Close()` is called
exactly once on the timer and stop-signal paths and exactly twice on the recovered-panic path
(once by the recovery function, once by the deferred close). -/
theorem readerTeardown {W : Type} (server : ServerTelnet W) (trimSpace : GoString → GoString)
    (w : W) (script : List IterEnv) (ex : IterExit)
    (h : (handleConnection server trimSpace w script).exit = some ex) :
    (ex = IterExit.timeout ∨ ex = IterExit.stop ∨ ex = IterExit.panic) ∧
    decCalls telnetNowConnect (handleConnection server trimSpace w script).events = 1 ∧
    closeCalls (handleConnection server trimSpace w script).events =
      (if ex = IterExit.panic then 2 else 1) := by
  have hl := readerLoop_no_teardown server.TCL server.Timeout trimSpace
    (List.replicate server.BufSize 0) (deliver server.TCL (analyzerStart w) helpMsg) script
    telnetNowConnect
  unfold handleConnection at h ⊢
  simp only at h ⊢
  split at h
  · simp at h
  · rename_i e hx
    simp only [Option.some.injEq] at h
    subst h
    simp only [hx] at hl ⊢
    have hne : e ≠ IterExit.next := fun he => hl.2.2.1 (by rw [he])
    have hnb : e ≠ IterExit.blocked := fun he => hl.2.2.2 (by rw [he])
    refine ⟨?_, ?_, ?_⟩
    · cases e <;> simp at hne hnb ⊢
    · simp only [decCalls_append, hl.2.1]
      cases e <;> simp [deferredCalls, decCalls]
      decide
    · simp only [closeCalls_append, hl.1]
      cases e <;> simp [deferredCalls, closeCalls]

theorem readerTeardown_witness :
    (handleConnection sampleServer id 0 [idleEnv, firedEnv]).exit = some IterExit.timeout ∧
    decCalls telnetNowConnect (handleConnection sampleServer id 0 [idleEnv, firedEnv]).events
      = 1 ∧
    closeCalls (handleConnection sampleServer id 0 [idleEnv, firedEnv]).events = 1 :=
  have h : (handleConnection sampleServer id 0 [idleEnv, firedEnv]).exit =
      some IterExit.timeout := by
    decide
  ⟨h, (readerTeardown sampleServer id 0 [idleEnv, firedEnv] IterExit.timeout h).2.1,
    (readerTeardown sampleServer id 0 [idleEnv, firedEnv] IterExit.timeout h).2.2⟩

/-- C7, as the claim states it, fails on the panic path: with `BufSize` 0 the first pass panics at
`buf[0]`, the panic is recovered, and `connection.Close()` is called twice. -/
theorem readerTeardown_counterexample :
    (handleConnection zeroBufServer id 0 [emptyReadEnv]).exit = some IterExit.panic ∧
    (handleConnection zeroBufServer id 0 [emptyReadEnv]).events =
      [Event.armTimer 60000000000, Event.goAnalyze, Event.send helpMsg, Event.setReadDeadline,
       Event.close, Event.statsDec telnetConnect, Event.statsInc telnetPanicRecover,
       Event.statsDec telnetNowConnect, Event.close] ∧
    closeCalls (handleConnection zeroBufServer id 0 [emptyReadEnv]).events = 2 ∧
    closeCalls (handleConnection zeroBufServer id 0 [emptyReadEnv]).events ≠ 1 := by
  decide

/-- A pass on a non-empty buffer with the analyzer still in its loop reaches the `select`, which
decides how the pass ends. -/
theorem readerIteration_select {W : Type} (tcl : CommandList W) (timeout : Nat)
    (trimSpace : GoString → GoString) (b0 : Nat) (t : List Nat) (a : AnalyzeResult W)
    (env : IterEnv) (ha : a.returned = false) :
    (readerIteration tcl timeout trimSpace (b0 :: t) a env).exit =
      selectNext env.timerFired
        (stopPending (readerIteration tcl timeout trimSpace (b0 :: t) a env).analyzer env)
        env.pickTimer := by
  unfold readerIteration
  simp only [ha]
  split
  · rename_i hb
    have hlen := congrArg List.length hb
    simp only [List.length_append, List.length_take, List.length_drop, List.length_cons,
      List.length_nil] at hlen
    omega
  · split_ifs <;> first | rfl | contradiction

/-- A pass whose read delivers no data and an error other than end-of-stream, on a buffer whose
first byte is not 0x04, sends nothing: it goes from the read to the `select`. -/
theorem readerIteration_noSend {W : Type} (tcl : CommandList W) (timeout : Nat)
    (trimSpace : GoString → GoString) (b0 : Nat) (t : List Nat) (a : AnalyzeResult W)
    (env : IterEnv) (hb : b0 ≠ 4) (hd : env.read.data = []) (he : env.read.err ≠ ReadErr.EOF) :
    readerIteration tcl timeout trimSpace (b0 :: t) a env =
      endOfPass (b0 :: t) a env [Event.setReadDeadline] := by
  unfold readerIteration
  simp only [hd, List.length_nil, Nat.zero_min, List.take_nil, List.drop_zero, List.nil_append,
    hb, if_false, he]
  split_ifs <;> rfl

/-- What C8 describes holds in runs without sends.  With a non-empty buffer and an analyzer that
is still in its loop after "help": over passes whose reads deliver nothing and fail with an error
other than end-of-stream, the loop goes on while the timer has not fired, and the pass in which
the timer has fired makes `handleConnection` return through the timer case and close the
connection once; the only timer armed is the one armed at the start. -/
theorem idleTimeout_noSend {W : Type} (server : ServerTelnet W) (trimSpace : GoString → GoString)
    (w : W) (pre : List IterEnv) (env : IterEnv) (rest : List IterEnv)
    (hbuf : 0 < server.BufSize)
    (hhelp : (analyzeMsg server.TCL (AnalyzerState.init w) helpMsg).returned = false)
    (hpre : ∀ e ∈ pre, e.read.data = [] ∧ e.read.err ≠ ReadErr.EOF ∧ e.timerFired = false)
    (hdata : env.read.data = []) (herr : env.read.err ≠ ReadErr.EOF)
    (hfire : env.timerFired = true) :
    (handleConnection server trimSpace w (pre ++ env :: rest)).exit = some IterExit.timeout ∧
    closeCalls (handleConnection server trimSpace w (pre ++ env :: rest)).events = 1 ∧
    timerArms (handleConnection server trimSpace w (pre ++ env :: rest)).events =
      [idleDuration server.Timeout] := by
  obtain ⟨k, hk⟩ : ∃ k, server.BufSize = k + 1 := ⟨server.BufSize - 1, by omega⟩
  have hrep : List.replicate server.BufSize 0 = 0 :: List.replicate k 0 := by
    rw [hk]; rfl
  have ha : (deliver server.TCL (analyzerStart w) helpMsg).returned = false := hhelp
  have hsp : ∀ e : IterEnv,
      stopPending (deliver server.TCL (analyzerStart w) helpMsg) e = false := by
    intro e
    simp [stopPending, ha]
  have hloop : (readerLoop server.TCL server.Timeout trimSpace (0 :: List.replicate k 0)
      (deliver server.TCL (analyzerStart w) helpMsg) (pre ++ env :: rest)).exit =
        some IterExit.timeout ∧
      timerArms (readerLoop server.TCL server.Timeout trimSpace (0 :: List.replicate k 0)
      (deliver server.TCL (analyzerStart w) helpMsg) (pre ++ env :: rest)).events = [] := by
    induction pre with
    | nil =>
      have hp := readerIteration_noSend server.TCL server.Timeout trimSpace 0
        (List.replicate k 0) (deliver server.TCL (analyzerStart w) helpMsg) env (by decide)
        hdata herr
      have hx : (readerIteration server.TCL server.Timeout trimSpace (0 :: List.replicate k 0)
          (deliver server.TCL (analyzerStart w) helpMsg) env).exit = IterExit.timeout := by
        rw [hp, endOfPass_exit, hsp, hfire]; rfl
      rw [List.nil_append, readerLoop_cons_exit _ _ _ _ _ _ _ (by rw [hx]; decide)
        (by rw [hx]; decide), hx]
      refine ⟨rfl, ?_⟩
      simp only [hp, (endOfPass_no_teardown _ _ _ _ telnetNowConnect).2.2]
      rfl
    | cons e pre ih =>
      have he := hpre e (List.mem_cons_self _ _)
      have hp := readerIteration_noSend server.TCL server.Timeout trimSpace 0
        (List.replicate k 0) (deliver server.TCL (analyzerStart w) helpMsg) e (by decide)
        he.1 he.2.1
      have hx : (readerIteration server.TCL server.Timeout trimSpace (0 :: List.replicate k 0)
          (deliver server.TCL (analyzerStart w) helpMsg) e).exit = IterExit.next := by
        rw [hp, endOfPass_exit, hsp, he.2.2]; rfl
      have ih2 := ih (fun d hd => hpre d (List.mem_cons_of_mem _ hd))
      rw [List.cons_append, readerLoop_cons_next _ _ _ _ _ _ _ hx]
      simp only [hp, endOfPass_buf, endOfPass_analyzer, timerArms_append,
        (endOfPass_no_teardown _ _ _ _ telnetNowConnect).2.2]
      exact ⟨ih2.1, by rw [ih2.2]; rfl⟩
  have hex : (handleConnection server trimSpace w (pre ++ env :: rest)).exit =
      some IterExit.timeout := by
    unfold handleConnection
    simp only [hrep, hloop.1]
  refine ⟨hex, ?_, ?_⟩
  · rw [closeCalls_handleConnection server trimSpace w _ IterExit.timeout hex]
    rfl
  · unfold handleConnection
    simp only [hrep, hloop.1, timerArms_append, hloop.2]
    simp [timerArms, deferredCalls]

/-- C8 fails on the code.  With idle timeout 1 s and a table whose handler for "help" fails,
the analyzer leaves its loop after "help" and blocks in `stopChan <-` (line 82).  The first
read returns `n = 0` and `io.EOF`, so the reader goes to `msgChan <- "exit"` (line 140), which
nobody receives: the pass never reaches the end-of-pass check, and whatever happens afterwards
`handleConnection` does not return, the connection is not closed and `telnet_now_connect` is not
decremented, although no read has delivered data and the idle timer has fired. -/
theorem idleTimeout_deadlock (rest : List IterEnv) :
    eofEnv.read.data = [] ∧ eofEnv.timerFired = true ∧
    (handleConnection failingHelpServer id 0 (eofEnv :: rest)).events =
      [Event.armTimer 1000000000, Event.goAnalyze, Event.send helpMsg, Event.setReadDeadline,
       Event.send exitMsg] ∧
    (handleConnection failingHelpServer id 0 (eofEnv :: rest)).exit = none ∧
    (handleConnection failingHelpServer id 0 (eofEnv :: rest)).blocked = true ∧
    closeCalls (handleConnection failingHelpServer id 0 (eofEnv :: rest)).events = 0 ∧
    decCalls telnetNowConnect
      (handleConnection failingHelpServer id 0 (eofEnv :: rest)).events = 0 ∧
    (handleConnection failingHelpServer id 0 (eofEnv :: rest)).analyzer.events =
      [Event.handler 1 helpMsg, Event.stop] ∧
    (handleConnection failingHelpServer id 0 (eofEnv :: rest)).analyzer.returned = true := by
  have hp : (readerIteration failingHelpTCL 1 id (List.replicate 16 0)
      (deliver failingHelpTCL (analyzerStart 0) helpMsg) eofEnv).exit = IterExit.blocked := by
    decide
  have hl := readerLoop_cons_blocked failingHelpTCL 1 id (List.replicate 16 0)
    (deliver failingHelpTCL (analyzerStart 0) helpMsg) eofEnv rest hp
  have hc : handleConnection failingHelpServer id 0 (eofEnv :: rest) =
      ⟨[Event.armTimer (idleDuration 1), Event.goAnalyze, Event.send helpMsg] ++
        (readerIteration failingHelpTCL 1 id (List.replicate 16 0)
          (deliver failingHelpTCL (analyzerStart 0) helpMsg) eofEnv).events,
       none, true,
       (readerIteration failingHelpTCL 1 id (List.replicate 16 0)
          (deliver failingHelpTCL (analyzerStart 0) helpMsg) eofEnv).analyzer⟩ := by
    unfold handleConnection
    simp only [failingHelpServer, hl]
  rw [hc]
  decide

/-- A pass whose read fails with an error other than end-of-stream forwards nothing, provided the
first byte of the buffer after the read is not 0x04. -/
theorem readerIteration_transient {W : Type} (tcl : CommandList W) (timeout : Nat)
    (trimSpace : GoString → GoString) (buf : List Nat) (a : AnalyzeResult W) (env : IterEnv)
    (herr : env.read.err = ReadErr.other)
    (h4 : (env.read.data.take (min env.read.data.length buf.length) ++
            buf.drop (min env.read.data.length buf.length)).head? ≠ some 4) :
    sends (readerIteration tcl timeout trimSpace buf a env).events = [] := by
  unfold readerIteration
  simp only [herr]
  split
  · simp [sends]
  · rename_i b0 tl hb
    rw [hb] at h4
    have hb0 : b0 ≠ 4 := by simpa using h4
    simp only [hb0, if_false]
    have hs : sends (endOfPass (b0 :: tl) a env [Event.setReadDeadline]).events = [] := by
      rw [sends_endOfPass]; rfl
    split_ifs <;> first | exact hs | contradiction

/-- C9 fails on the code.  After a read has stored the byte 0x04 at the front of the buffer, a
later pass whose read fails with a deadline expiry and delivers nothing finds `buf[0] == 0x04`,
takes the error for `io.EOF` and sends "exit" on the message channel.  With a table that has no
entry for "exit" the analyzer keeps running and answers each of them with a notice. -/
theorem transientReadError_staleBuffer :
    (readerIteration helpOnlyTCL 60 id (List.replicate 16 0)
      (deliver helpOnlyTCL (analyzerStart 0) helpMsg) ctrlDEnv).buf = 4 :: List.replicate 15 0 ∧
    idleEnv.read.err = ReadErr.other ∧ idleEnv.read.data = [] ∧
    (readerIteration helpOnlyTCL 60 id (4 :: List.replicate 15 0)
      (deliver helpOnlyTCL (deliver helpOnlyTCL (analyzerStart 0) helpMsg) exitMsg)
      idleEnv).events =
      [Event.setReadDeadline, Event.send exitMsg, Event.sleep 1000, Event.sleep 150] ∧
    sends (readerIteration helpOnlyTCL 60 id (4 :: List.replicate 15 0)
      (deliver helpOnlyTCL (deliver helpOnlyTCL (analyzerStart 0) helpMsg) exitMsg)
      idleEnv).events = [exitMsg] ∧
    sends (handleConnection helpOnlyServer id 0 [ctrlDEnv, idleEnv]).events =
      [helpMsg, exitMsg, exitMsg] ∧
    (handleConnection helpOnlyServer id 0 [ctrlDEnv, idleEnv]).exit = none ∧
    (handleConnection helpOnlyServer id 0 [ctrlDEnv, idleEnv]).blocked = false ∧
    (CommandAnalyze helpOnlyTCL (AnalyzerState.init 0) [helpMsg, exitMsg, exitMsg]).returned
      = false ∧
    (handleConnection helpOnlyServer id 0 [ctrlDEnv, idleEnv]).analyzer.events =
      (CommandAnalyze helpOnlyTCL (AnalyzerState.init 0) [helpMsg, exitMsg, exitMsg]).events := by
  decide

end Telnet

/-! ## The comment stripper -/

namespace Jsonnocomment

/-- Text without `/` and without `*` is returned unchanged. -/
theorem cleanLoop_plain (file : List Nat) (h : ∀ c ∈ file, c ≠ 47 ∧ c ≠ 42) :
    cleanLoop file false false = file := by
  induction file with
  | nil => rfl
  | cons c rest ih =>
    have hc := h c (List.mem_cons_self _ _)
    have ih2 := ih (fun d hd => h d (List.mem_cons_of_mem _ hd))
    cases rest with
    | nil =>
      by_cases h10 : c = 10
      · simp [cleanLoop, h10]
      · simp [cleanLoop, h10, hc.1, hc.2]
    | cons d rest2 =>
      by_cases h10 : c = 10
      · simp [cleanLoop, h10]
        simpa using ih2
      · simp only [cleanLoop, h10, hc.1, hc.2, if_false]
        simpa using ih2

/-- C10 fails on the code.  The text `{"a":"*/"}` contains neither "//" nor "/*", yet the bytes
returned differ from the file content: the pair `*/` is dropped. -/
theorem cleanComment_commentFree_fails :
    hasPair 47 47 sampleJson = false ∧ hasPair 47 42 sampleJson = false ∧
    (ReadFileAndCleanComment (fun _ => (Except.ok sampleJson : Except Unit (List Nat))) [] =
      Except.ok [123, 34, 97, 34, 58, 34, 34, 125]) ∧
    cleanLoop sampleJson false false ≠ sampleJson ∧
    cleanLoop [97, 47] false false = [97] ∧
    cleanLoop [97, 42] false false = [97] := by
  refine ⟨by decide, by decide, ?_, by decide, by decide, by decide⟩
  rfl

end Jsonnocomment

/-! ## Line and block comments -/

namespace Jsonnocomment

/-- Outside comments a byte other than `/` and `*` is written and the next byte is read. -/
theorem cleanLoop_cons_plain (x : Nat) (l : List Nat) (h47 : x ≠ 47) (h42 : x ≠ 42) :
    cleanLoop (x :: l) false false = x :: cleanLoop l false false := by
  cases l with
  | nil =>
    by_cases h10 : x = 10
    · simp [cleanLoop, h10]
    · simp [cleanLoop, h10, h47, h42]
  | cons d rest =>
    by_cases h10 : x = 10
    · simp [cleanLoop, h10]
    · simp [cleanLoop, h10, h47, h42]

/-- Text without `/` and without `*` in front of any text is written as it is. -/
theorem cleanLoop_plain_append (p t : List Nat) (hp : ∀ x ∈ p, x ≠ 47 ∧ x ≠ 42) :
    cleanLoop (p ++ t) false false = p ++ cleanLoop t false false := by
  induction p with
  | nil => rfl
  | cons x p2 ih =>
    have hx := hp x (List.mem_cons_self _ _)
    rw [List.cons_append, cleanLoop_cons_plain x (p2 ++ t) hx.1 hx.2,
      ih (fun y hy => hp y (List.mem_cons_of_mem _ hy)), List.cons_append]

/-- Inside a line comment a byte other than the newline is skipped (when more bytes follow). -/
theorem cleanLoop_cons_inLine (x d : Nat) (rest : List Nat) (cb : Bool) (h10 : x ≠ 10) :
    cleanLoop (x :: d :: rest) true cb = cleanLoop (d :: rest) true cb := by
  by_cases h47 : x = 47
  · simp [cleanLoop, h47]
  · by_cases h42 : x = 42
    · simp [cleanLoop, h42]
    · simp [cleanLoop, h10, h47, h42]

/-- The newline ends a line comment and is written. -/
theorem cleanLoop_newline (s : List Nat) (cl cb : Bool) :
    cleanLoop (10 :: s) cl cb = 10 :: cleanLoop s false cb := by
  cases s with
  | nil => simp [cleanLoop]
  | cons d rest => simp [cleanLoop]

/-- A line comment without newline, up to and including the newline that ends it. -/
theorem cleanLoop_lineBody (c s : List Nat) (cb : Bool) (hc : ∀ x ∈ c, x ≠ 10) :
    cleanLoop (c ++ 10 :: s) true cb = 10 :: cleanLoop s false cb := by
  induction c with
  | nil => exact cleanLoop_newline s true cb
  | cons x c2 ih =>
    have hx := hc x (List.mem_cons_self _ _)
    have ih2 := ih (fun y hy => hc y (List.mem_cons_of_mem _ hy))
    obtain ⟨d, rest, hd⟩ : ∃ d rest, c2 ++ 10 :: s = d :: rest := by
      cases c2 with
      | nil => exact ⟨10, s, rfl⟩
      | cons y c3 => exact ⟨y, c3 ++ 10 :: s, rfl⟩
    rw [List.cons_append, hd, cleanLoop_cons_inLine x d rest cb hx, ← hd, ih2]

/-- C11. Line comment removal: for text `p` without `/` and without `*`, a comment text `c`
without newline and any text `s`, cleaning `p ++ "//" ++ c ++ "\n" ++ s` gives `p`, the newline,
and the result of cleaning `s` as fresh input. -/
theorem lineCommentRemoval {ε : Type} (readFile : List Nat → Except ε (List Nat))
    (pathFile p c s : List Nat)
    (hp : ∀ x ∈ p, x ≠ 47 ∧ x ≠ 42) (hc : ∀ x ∈ c, x ≠ 10)
    (hfile : readFile pathFile = Except.ok (p ++ [47, 47] ++ c ++ [10] ++ s)) :
    cleanLoop (p ++ [47, 47] ++ c ++ [10] ++ s) false false =
      p ++ [10] ++ cleanLoop s false false ∧
    ReadFileAndCleanComment readFile pathFile =
      Except.ok (p ++ [10] ++ cleanLoop s false false) := by
  have key : cleanLoop (p ++ [47, 47] ++ c ++ [10] ++ s) false false =
      p ++ [10] ++ cleanLoop s false false := by
    have e : p ++ [47, 47] ++ c ++ [10] ++ s = p ++ (47 :: 47 :: (c ++ 10 :: s)) := by simp
    rw [e, cleanLoop_plain_append p _ hp]
    have e2 : cleanLoop (47 :: 47 :: (c ++ 10 :: s)) false false =
        cleanLoop (c ++ 10 :: s) true false := by
      simp [cleanLoop]
    rw [e2, cleanLoop_lineBody c s false hc]
    simp
  refine ⟨key, ?_⟩
  simp only [ReadFileAndCleanComment, hfile, key]

theorem lineCommentRemoval_witness :
    ((∀ x ∈ [123, 32], x ≠ 47 ∧ x ≠ 42) ∧ (∀ x ∈ [32, 47, 42, 120], x ≠ 10)) ∧
    cleanLoop ([123, 32] ++ [47, 47] ++ [32, 47, 42, 120] ++ [10] ++ [125, 47, 47]) false false =
      [123, 32] ++ [10] ++ cleanLoop [125, 47, 47] false false :=
  have hp : ∀ x ∈ [123, 32], x ≠ 47 ∧ x ≠ 42 := by decide
  have hc : ∀ x ∈ [32, 47, 42, 120], x ≠ 10 := by decide
  ⟨⟨hp, hc⟩,
    (lineCommentRemoval (fun _ => (Except.ok ([123, 32] ++ [47, 47] ++ [32, 47, 42, 120] ++ [10]
        ++ [125, 47, 47]) : Except Unit (List Nat))) [] [123, 32] [32, 47, 42, 120] [125, 47, 47]
      hp hc rfl).1⟩

theorem hasPair_tail (a b x : Nat) (l : List Nat) (h : hasPair a b (x :: l) = false) :
    hasPair a b l = false := by
  cases l with
  | nil => rfl
  | cons y l2 =>
    simp only [hasPair, Bool.or_eq_false_iff] at h
    exact h.2

/-- Inside a block comment: up to the closing `*/` only the newlines are written; after it the
text is read as fresh input. -/
theorem cleanLoop_blockBody (c s : List Nat) (hc : hasPair 42 47 c = false) :
    cleanLoop (c ++ 42 :: 47 :: s) false true =
      c.filter (fun x => x == 10) ++ cleanLoop s false false := by
  induction c with
  | nil => simp [cleanLoop]
  | cons x c2 ih =>
    have ih2 := ih (hasPair_tail 42 47 x c2 hc)
    by_cases h10 : x = 10
    · subst h10
      rw [List.cons_append, cleanLoop_newline, ih2]
      simp [List.filter]
    · have hf : (x :: c2).filter (fun x => x == 10) = c2.filter (fun x => x == 10) :=
        List.filter_cons_of_neg (by simpa using h10)
      rw [hf, ← ih2]
      cases c2 with
      | nil =>
        by_cases h47 : x = 47
        · simp [cleanLoop, h47]
        · by_cases h42 : x = 42
          · simp [cleanLoop, h42]
          · simp [cleanLoop, h10, h47, h42]
      | cons y c3 =>
        by_cases h47 : x = 47
        · simp [cleanLoop, h47]
        · by_cases h42 : x = 42
          · have hy : y ≠ 47 := by
              intro hy
              simp [hasPair, h42, hy] at hc
            simp [cleanLoop, h42, hy]
          · simp [cleanLoop, h10, h47, h42]

/-- What the code does with a block comment: for text `p` without `/` and without `*`, a comment
text `c` without `*/` and any text `s`, cleaning `p ++ "/*" ++ c ++ "*/" ++ s` gives `p`, the
newlines of `c`, and the result of cleaning `s` as fresh input. -/
theorem cleanLoop_blockComment (p c s : List Nat)
    (hp : ∀ x ∈ p, x ≠ 47 ∧ x ≠ 42) (hc : hasPair 42 47 c = false) :
    cleanLoop (p ++ [47, 42] ++ c ++ [42, 47] ++ s) false false =
      p ++ c.filter (fun x => x == 10) ++ cleanLoop s false false := by
  have e : p ++ [47, 42] ++ c ++ [42, 47] ++ s = p ++ (47 :: 42 :: (c ++ 42 :: 47 :: s)) := by
    simp
  rw [e, cleanLoop_plain_append p _ hp]
  have e2 : cleanLoop (47 :: 42 :: (c ++ 42 :: 47 :: s)) false false =
      cleanLoop (c ++ 42 :: 47 :: s) false true := by
    simp [cleanLoop]
  rw [e2, cleanLoop_blockBody c s hc]
  simp

/-- C12 fails on the code.  For `p = "a"`, the comment text `c = "x\ny"` (which does not contain
`*/`) and `s = "b"`, cleaning `p ++ "/*" ++ c ++ "*/" ++ s` gives `"a\nb"`, not `p ++ clean(s)`,
which is `"ab"`: the newline of `c` stays in the output. -/
theorem blockCommentRemoval_keepsNewline :
    sampleBlock = [97] ++ [47, 42] ++ [120, 10, 121] ++ [42, 47] ++ [98] ∧
    (∀ x ∈ [97], x ≠ 47 ∧ x ≠ 42) ∧ hasPair 42 47 [120, 10, 121] = false ∧
    cleanLoop sampleBlock false false = [97, 10, 98] ∧
    [97] ++ cleanLoop [98] false false = [97, 98] ∧
    cleanLoop sampleBlock false false ≠ [97] ++ cleanLoop [98] false false ∧
    (ReadFileAndCleanComment (fun _ => (Except.ok sampleBlock : Except Unit (List Nat))) [] =
      Except.ok [97, 10, 98]) := by
  refine ⟨by decide, by decide, by decide, by decide, by decide, by decide, ?_⟩
  rfl

end Jsonnocomment

/-! ## The e-mail payload -/

namespace Email

/-- The set-up of the message leaves `message` empty, whatever the library functions return. -/
theorem buildMessage_empty (lib : Library) (headers : List (GoString × GoString))
    (body : GoString) : buildMessage lib headers body = [] := by
  unfold buildMessage
  simp only
  induction headers with
  | nil => rfl
  | cons kv rest ih =>
    rw [List.foldl_cons]
    exact ih

/-- Every call recorded by `runSteps` is one of the calls of its list. -/
theorem runSteps_subset (fails : Step → Bool) (l : List (Step × SmtpEvent)) (e : SmtpEvent)
    (h : e ∈ (runSteps fails l).1) : e ∈ l.map Prod.snd := by
  induction l with
  | nil => simp [runSteps] at h
  | cons se rest ih =>
    obtain ⟨st, ev⟩ := se
    unfold runSteps at h
    by_cases hf : fails st = true
    · simp only [hf, if_true, List.mem_singleton] at h
      simp [h]
    · simp only [hf, if_false] at h
      have h3 : e ∈ ev :: (runSteps fails rest).1 := h
      rcases List.mem_cons.mp h3 with h1 | h2
      · simp [h1]
      · exact List.mem_cons_of_mem _ (ih h2)

/-- C13 fails on the code.  For every sender, recipient, subject and body, whatever the library
functions return and whichever calls fail, every byte slice `sendEmail` writes to the SMTP data
stream is empty: the results of `concat.Strings` and `concat.StringsMulti` are not assigned to
`message`.  When no call fails the trace is the nine calls with one empty write.  For the sample
input the described message is `from: <a@x>`, `to: <b@y>`, `Subject: Hi`, an empty line and
`text`, and the bytes written are empty. -/
theorem sendEmail_writes_empty_message (lib : Library)
    (order : List (GoString × GoString) → List (GoString × GoString)) (fails : Step → Bool)
    (fromAddr toAddr : Address) (subj body : GoString) (c : Credentials) :
    (∀ b, SmtpEvent.write b ∈ (sendEmail lib order fails fromAddr toAddr subj body c).1 →
      b = []) ∧
    sendEmail lib order (fun _ => false) fromAddr toAddr subj body c =
      ([SmtpEvent.dial c.ServerName, SmtpEvent.newClient (lib.splitHost c.ServerName),
        SmtpEvent.auth c.Identity c.Username c.Password (lib.splitHost c.ServerName),
        SmtpEvent.mail fromAddr.Address, SmtpEvent.rcpt toAddr.Address, SmtpEvent.data,
        SmtpEvent.write [], SmtpEvent.close, SmtpEvent.quit], Outcome.returned false) ∧
    dataWrites (sendEmail sampleLibrary id (fun _ => false) sampleFrom sampleTo [72, 105]
      [116, 101, 120, 116] sampleCredentials).1 = [[]] ∧
    describedMessage sampleLibrary sampleFrom sampleTo [72, 105] [116, 101, 120, 116] =
      [102, 114, 111, 109, 58, 32, 60, 97, 64, 120, 62, 13, 10,
       116, 111, 58, 32, 60, 98, 64, 121, 62, 13, 10,
       83, 117, 98, 106, 101, 99, 116, 58, 32, 72, 105, 13, 10,
       13, 10, 116, 101, 120, 116] := by
  refine ⟨?_, ?_, by decide, by decide⟩
  · intro b hb
    unfold sendEmail at hb
    simp only [buildMessage_empty] at hb
    split at hb
    · have := runSteps_subset _ _ _ hb
      simpa using this
    · rcases List.mem_append.mp hb with h1 | h1
      · have := runSteps_subset _ _ _ h1
        simpa using this
      · simp at h1
  · simp [sendEmail, runSteps, buildMessage_empty]

end Email
